import Mathlib

/-!
Verification of the db-bridge repository (packages db_bridge and dbbridge).

The development shallowly embeds the string processing and the control flow
of `run_sql` and `get_column_values` from `db_bridge/db_utils.py` (the
"bridge" version below) and `dbbridge/db_utils.py` (the "legacy" version
below).  SQL text is modelled as `List Char`; the database driver and the
interactive user are modelled as explicit parameters (`ExecOutcome`,
chooser functions), so that every definition is executable and every run of
the model corresponds to one call of the Python function.
-/

set_option maxHeartbeats 1000000

/-! ## Definitions -/

/-- SQL text, credentials fields and messages are lists of characters,
mirroring Python strings. -/
abbrev L := List Char

/-- Database cell values.  The claims do not depend on the value type, so a
single concrete type keeps the model executable. -/
abbrev Val := Int

/-- A fetched row as produced by a dict cursor: an association list from
column name to value. -/
abbrev Row := List (L × Val)

/-- Python `str.strip()` whitespace set (space, tab, newline, carriage
return, vertical tab, form feed). -/
def isWS (c : Char) : Bool :=
  (c == ' ') || (c == '\t') || (c == '\n') || (c == '\r') ||
  (c == Char.ofNat 11) || (c == Char.ofNat 12)

/-- ASCII upper-casing of one character, as used by Python `str.upper()` on
the characters relevant here. -/
def upChar (c : Char) : Char :=
  if 'a' ≤ c ∧ c ≤ 'z' then Char.ofNat (c.toNat - 32) else c

/-- ASCII lower-casing of one character, as used by Python `str.lower()` on
the characters relevant here. -/
def lowChar (c : Char) : Char :=
  if 'A' ≤ c ∧ c ≤ 'Z' then Char.ofNat (c.toNat + 32) else c

/-- Python `str.lower()`. -/
def lowerL (s : L) : L := s.map lowChar

/-- Case-insensitive character comparison, as performed by `re.IGNORECASE`. -/
def ciEq (a b : Char) : Bool := upChar a == upChar b

/-- `ciStarts v s`: the pattern `v` matches a prefix of `s` case
insensitively.  This is `re.match` with an alternation of literal words. -/
def ciStarts : L → L → Bool
  | [], _ => true
  | _ :: _, [] => false
  | a :: v, c :: s => ciEq a c && ciStarts v s

/-- `ciHas n s`: the literal pattern `n` occurs somewhere in `s`, case
insensitively.  This is `re.search` with a literal word. -/
def ciHas (n : L) : L → Bool
  | [] => ciStarts n []
  | c :: s => ciStarts n (c :: s) || ciHas n s

/-- `ciFit a b`: on the positions where `a` and `b` overlap when laid side by
side, all characters agree case insensitively.  Used to express that two
literal patterns cannot match at overlapping positions. -/
def ciFit (a b : L) : Bool := (a.zip b).all fun p => ciEq p.1 p.2

/-- Python `str.strip()` of trailing whitespace only. -/
def trimR (s : L) : L := (s.reverse.dropWhile isWS).reverse

/-- Python `str.strip()` (both ends). -/
def pyStrip (s : L) : L := trimR (s.dropWhile isWS)

/-- Worker of `replaceL`, structurally recursive on a fuel bound so that
concrete instances evaluate by kernel reduction.  The fuel never runs out
when it starts at the length of the text. -/
def replaceGo (pat rep : L) : Nat → L → L
  | _, [] => []
  | 0, c :: cs => c :: cs
  | fuel + 1, c :: cs =>
    if !pat.isEmpty && pat.isPrefixOf (c :: cs) then
      rep ++ replaceGo pat rep fuel ((c :: cs).drop pat.length)
    else
      c :: replaceGo pat rep fuel cs

/-- Literal, leftmost, non-overlapping global replacement: the behaviour of
`re.sub` with a literal pattern and of Python `str.replace`. -/
def replaceL (pat rep : L) (s : L) : L := replaceGo pat rep s.length s

/-- The single-quote character (written numerically to keep the source free
of quote escapes). -/
def squote : Char := Char.ofNat 39

/-- The double-quote character. -/
def dquote : Char := Char.ofNat 34

/-- The pattern `None`. -/
def patNone : L := "None".data

/-- The pattern matching a single-quoted None literal. -/
def patNoneSQ : L := squote :: patNone ++ [squote]

/-- The pattern matching a double-quoted None literal. -/
def patNoneDQ : L := dquote :: patNone ++ [dquote]

/-- The replacement text NULL. -/
def repNULL : L := "NULL".data

/-- `db_bridge.db_utils.replace_none_w_null` (identical to
`dbbridge.db_utils._none_to_null`): substitute the quoted patterns first,
then every remaining bare occurrence of None, and strip the result. -/
def replace_none_w_null (s : L) : L :=
  pyStrip (replaceL patNone repNULL
    (replaceL patNoneDQ repNULL
      (replaceL patNoneSQ repNULL s)))

/-- Drop characters up to and including the first newline; `none` when no
newline exists (the regex group then fails to match). -/
def dropToNewline : L → Option L
  | [] => none
  | c :: cs => if c == '\n' then some cs else dropToNewline cs

/-- Worker of `skipWsComments`, structurally recursive on a fuel bound so
that concrete instances evaluate by kernel reduction.  The fuel never runs
out when it starts at the length of the text, since each dropped comment
consumes at least its newline. -/
def skipWsGo : Nat → L → L
  | 0, s => s.dropWhile isWS
  | fuel + 1, s =>
    let t := s.dropWhile isWS
    if ('-' :: '-' :: []).isPrefixOf t then
      match dropToNewline t with
      | some r => skipWsGo fuel r
      | none => t
    else t

/-- Skip leading whitespace and leading `--`-to-newline comment lines: the
`^\s*(?:--.*\n\s*)*` part of the command-classification regex in the bridge
`run_sql`. -/
def skipWsComments (s : L) : L := skipWsGo s.length s

/-- ASCII letter test, the `[A-Za-z]` character class. -/
def isAlpha (c : Char) : Bool :=
  ('A' ≤ c && c ≤ 'Z') || ('a' ≤ c && c ≤ 'z')

/-- The command word extracted by the bridge `run_sql` when deciding the
return value of a write statement: the regex
`^\s*(?:--.*\n\s*)*([A-Za-z]+)` applied to the raw SQL, upper-cased; the
empty word when the regex fails. -/
def firstCmd (s : L) : L := ((skipWsComments s).takeWhile isAlpha).map upChar

/-- The command word extracted by the legacy `run_sql`:
`raw_sql.split()[0].upper()`, i.e. the first whitespace-delimited token
upper-cased. -/
def firstToken (s : L) : L :=
  ((s.dropWhile isWS).takeWhile fun c => !isWS c).map upChar

/-- Keyword CREATE. -/
def kwCREATE : L := "CREATE".data

/-- Keyword DROP. -/
def kwDROP : L := "DROP".data

/-- Keyword UPDATE. -/
def kwUPDATE : L := "UPDATE".data

/-- Keyword DELETE. -/
def kwDELETE : L := "DELETE".data

/-- Keyword INSERT. -/
def kwINSERT : L := "INSERT".data

/-- Keyword SELECT. -/
def kwSELECT : L := "SELECT".data

/-- Keyword WHERE. -/
def kwWHERE : L := "WHERE".data

/-- The three substitutions of `replace_none_w_null` before the final
strip. -/
def rep3 (t : L) : L :=
  replaceL patNone repNULL (replaceL patNoneDQ repNULL (replaceL patNoneSQ repNULL t))

/-- The raw SQL text as prepared by both versions of `run_sql`: the input is
stripped, and when `params is None and none_to_null` holds the None literals
are substituted. -/
def prepRaw (sql : L) (params : Option (List Val)) (noneToNull : Bool) : L :=
  if params.isNone && noneToNull then replace_none_w_null (pyStrip sql) else pyStrip sql

/-- An error raised by the underlying database driver (PyMySQL, psycopg2,
sqlite3) during execute or fetch, identified by its message. -/
structure DriverErr where
  msg : L
deriving DecidableEq

/-- The Python exceptions observable from `run_sql` and
`get_column_values`.  `permDDL` and `permWhere` are the two
`SQLPermissionError`s (plain `Exception`s in the legacy version),
`sqlExecution` is `SQLExecutionError` wrapping the driver error that caused
it, `driverPass` is a driver exception re-raised unchanged by a bare
`raise`, and the remaining constructors model `ValueError`,
`NoRowFoundError`, `KeyError`, `IndexError` and generic `Exception`s. -/
inductive PyErr where
  | permDDL (msg : L)
  | permWhere (msg : L)
  | valueError (msg : L)
  | sqlExecution (msg : L) (cause : DriverErr)
  | driverPass (e : DriverErr)
  | noRowFound (msg : L)
  | keyError (k : L)
  | indexError
  | generic (msg : L)
deriving DecidableEq

/-- The value returned by a successful `run_sql` call: fetched rows for a
statement with a result set, `cursor.lastrowid` for INSERT,
`cursor.rowcount` for UPDATE/DELETE, and the empty list otherwise. -/
inductive RetVal where
  | rows (rs : List Row)
  | lastId (n : Nat)
  | affected (n : Nat)
  | emptyList
deriving DecidableEq

/-- The three bridge adapters of the db_bridge package. -/
inductive DriverKind where
  | sqlite
  | mysql
  | postgres
deriving DecidableEq

/-- The credential fields relevant to `run_sql` control flow.  Only the
`driver` entry is inspected by the dispatcher; connection fields are part of
the modelled environment. -/
structure Creds where
  driver : Option L
deriving DecidableEq

/-- What the underlying driver does when the prepared statement is executed:
either the cursor raises, or execution completes with a result-set
description (`cursor.description`, carrying the rows `fetchall` would
return), a row count and a last-insert id. -/
inductive ExecOutcome where
  | raises (e : DriverErr)
  | done (description : Option (List Row)) (rowcount : Nat) (lastrowid : Nat)
deriving DecidableEq

/-- Observable trace of one `run_sql` call apart from the prepared raw SQL:
which bridge was constructed, whether a connection was opened, the quiet
flag in effect during execution, the SQL text given to `cursor.execute`,
whether the `finally` clause closed cursor and connection, and the result or
exception. -/
structure RunCore where
  bridge : Option DriverKind
  connOpened : Bool
  quietUsed : Option Bool
  executedSql : Option L
  closedAfter : Bool
  result : Except PyErr RetVal

/-- Full observable trace of one `run_sql` call. -/
structure RunOutcome where
  rawUsed : L
  bridge : Option DriverKind
  connOpened : Bool
  quietUsed : Option Bool
  executedSql : Option L
  closedAfter : Bool
  result : Except PyErr RetVal

/-- Attach the prepared raw SQL to a core trace. -/
def mkOut (raw : L) (c : RunCore) : RunOutcome :=
  ⟨raw, c.bridge, c.connOpened, c.quietUsed, c.executedSql, c.closedAfter, c.result⟩

/-- A trace produced before any connection was opened (credential or guard
failure). -/
def guardCore (e : PyErr) : RunCore :=
  ⟨none, false, none, none, false, Except.error e⟩

/-- Driver selection of the bridge `run_sql`: the lower-cased
`creds.get("driver", "mysql")` compared against the three adapters. -/
def driverOf (d : L) : Option DriverKind :=
  if d == "sqlite".data then some DriverKind.sqlite
  else if d == "mysql".data then some DriverKind.mysql
  else if d == "postgres".data then some DriverKind.postgres
  else none

/-- Default for `quiet` when the caller passes None: verbose (False) exactly
for UPDATE/DELETE/INSERT statements. -/
def quietAuto (raw : L) : Bool :=
  !(ciStarts kwUPDATE raw || ciStarts kwDELETE raw || ciStarts kwINSERT raw)

/-- Message of the DDL guard in the bridge version. -/
def ddlMsg (raw : L) : L := "Disallowed DDL on non-SQLite driver: ".data ++ raw

/-- Message of the WHERE guard in the bridge version. -/
def whereMsg (raw : L) : L := "UPDATE/DELETE requires WHERE clause: ".data ++ raw

/-- Python truthiness of the params tuple: not None and not empty. -/
def paramsNonempty : Option (List Val) → Bool
  | some (_ :: _) => true
  | _ => false

/-- The sqlite placeholder pattern. -/
def patPercentS : L := "%s".data

/-- The sqlite placeholder replacement. -/
def repQM : L := "?".data

/-- The DDL guard condition of the bridge `run_sql`: a CREATE/DROP prefix on
a driver other than sqlite. -/
def guardDDL (raw driver : L) : Bool :=
  (!(driver == "sqlite".data)) && (ciStarts kwCREATE raw || ciStarts kwDROP raw)

/-- The WHERE guard condition shared by both versions: an UPDATE/DELETE
prefix with no WHERE anywhere in the raw SQL. -/
def guardWhere (raw : L) : Bool :=
  (ciStarts kwUPDATE raw || ciStarts kwDELETE raw) && !(ciHas kwWHERE raw)

/-- The SQL text handed to `cursor.execute` by the bridge `run_sql`:
`%s` becomes `?` for sqlite when a non-empty params tuple was given. -/
def execSqlOf (raw : L) (d : DriverKind) (params : Option (List Val)) : L :=
  if (d == DriverKind.sqlite) && paramsNonempty params then
    replaceL patPercentS repQM raw
  else raw

/-- Execution phase of the bridge `run_sql` once a bridge `d` has been
constructed: show or log, execute, and classify the return value
(result-set statements return the fetched rows; otherwise the
comment-skipping command regex decides between lastrowid, rowcount and the
empty list). -/
def execCoreB (raw : L) (d : DriverKind) (params : Option (List Val))
    (quiet : Option Bool) (env : ExecOutcome) : RunCore :=
  match env with
  | ExecOutcome.raises e =>
    ⟨some d, true, some (quiet.getD (quietAuto raw)), some (execSqlOf raw d params), true,
      Except.error (PyErr.sqlExecution ("Failed to execute SQL: ".data ++ e.msg) e)⟩
  | ExecOutcome.done desc rc lid =>
    match desc with
    | some rs =>
      ⟨some d, true, some (quiet.getD (quietAuto raw)), some (execSqlOf raw d params), true,
        Except.ok (RetVal.rows rs)⟩
    | none =>
      if firstCmd raw == kwINSERT then
        ⟨some d, true, some (quiet.getD (quietAuto raw)), some (execSqlOf raw d params), true,
          Except.ok (RetVal.lastId lid)⟩
      else if (firstCmd raw == kwUPDATE) || (firstCmd raw == kwDELETE) then
        ⟨some d, true, some (quiet.getD (quietAuto raw)), some (execSqlOf raw d params), true,
          Except.ok (RetVal.affected rc)⟩
      else
        ⟨some d, true, some (quiet.getD (quietAuto raw)), some (execSqlOf raw d params), true,
          Except.ok RetVal.emptyList⟩

/-- Control flow of `db_bridge.db_utils.run_sql` after the raw SQL and the
lower-cased driver string have been computed: permission guards, bridge
dispatch, then execution.  `env` models what the driver does with the
executed statement. -/
def run_core_bridge (raw driver : L) (params : Option (List Val))
    (quiet : Option Bool) (env : ExecOutcome) : RunCore :=
  if guardDDL raw driver then
    guardCore (PyErr.permDDL (ddlMsg raw))
  else if guardWhere raw then
    guardCore (PyErr.permWhere (whereMsg raw))
  else
    match driverOf driver with
    | none => guardCore (PyErr.valueError ("Unsupported driver: ".data ++ driver))
    | some d => execCoreB raw d params quiet env

/-- `db_bridge.db_utils.run_sql`, modelled for a call that provides the
credentials directly (`db_creds`); the `as_dict` flag only selects the
cursor class and does not influence control flow, and `cursor.mogrify` only
affects logging, so neither appears in the trace. -/
def run_sql_bridge (sql : L) (params : Option (List Val)) (quiet : Option Bool)
    (noneToNull : Bool) (creds : Creds) (env : ExecOutcome) : RunOutcome :=
  let driver := lowerL (creds.driver.getD ("mysql".data))
  let raw := prepRaw sql params noneToNull
  mkOut raw (run_core_bridge raw driver params quiet env)

/-- Execution phase of the legacy `run_sql` once the PyMySQL connection is
open: execute, then classify the return value by the first token of the raw
SQL (an empty statement raises `IndexError` at `split()[0]`). -/
def execCoreL (raw : L) (quiet : Option Bool) (env : ExecOutcome) : RunCore :=
  match env with
  | ExecOutcome.raises e =>
    ⟨some DriverKind.mysql, true, some (quiet.getD (quietAuto raw)), some raw, true,
      Except.error (PyErr.driverPass e)⟩
  | ExecOutcome.done desc rc lid =>
    if (raw.dropWhile isWS) == [] then
      ⟨some DriverKind.mysql, true, some (quiet.getD (quietAuto raw)), some raw, true,
        Except.error PyErr.indexError⟩
    else if firstToken raw == kwSELECT then
      ⟨some DriverKind.mysql, true, some (quiet.getD (quietAuto raw)), some raw, true,
        Except.ok (RetVal.rows (desc.getD []))⟩
    else if firstToken raw == kwINSERT then
      ⟨some DriverKind.mysql, true, some (quiet.getD (quietAuto raw)), some raw, true,
        Except.ok (RetVal.lastId lid)⟩
    else if (firstToken raw == kwUPDATE) || (firstToken raw == kwDELETE) then
      ⟨some DriverKind.mysql, true, some (quiet.getD (quietAuto raw)), some raw, true,
        Except.ok (RetVal.affected rc)⟩
    else
      ⟨some DriverKind.mysql, true, some (quiet.getD (quietAuto raw)), some raw, true,
        Except.ok RetVal.emptyList⟩

/-- Control flow of `dbbridge.db_utils.run_sql` after the raw SQL has been
computed: the permission guards apply to every call (this version has a
single, hard-wired MySQL driver), then the connection opens and the
statement executes. -/
def run_core_legacy (raw : L) (quiet : Option Bool) (env : ExecOutcome) : RunCore :=
  if ciStarts kwCREATE raw || ciStarts kwDROP raw then
    guardCore (PyErr.permDDL ("SQL PERMISSION ERROR: CREATE/DROP not allowed".data))
  else if guardWhere raw then
    guardCore (PyErr.permWhere ("SQL ERROR: UPDATE/DELETE requires WHERE clause".data))
  else
    execCoreL raw quiet env

/-- `dbbridge.db_utils.run_sql` (MySQL only, PyMySQL hard-wired). -/
def run_sql_legacy (sql : L) (params : Option (List Val)) (quiet : Option Bool)
    (noneToNull : Bool) (env : ExecOutcome) : RunOutcome :=
  let raw := prepRaw sql params noneToNull
  mkOut raw (run_core_legacy raw quiet env)

/-- Does a result carry the DDL permission error? -/
def isPermDDLRes : Except PyErr RetVal → Bool
  | Except.error (PyErr.permDDL _) => true
  | _ => false

/-- Does a result carry the WHERE permission error? -/
def isPermWhereRes : Except PyErr RetVal → Bool
  | Except.error (PyErr.permWhere _) => true
  | _ => false

/-- Does a result carry a ValueError? -/
def isValueErrorRes : Except PyErr RetVal → Bool
  | Except.error (PyErr.valueError _) => true
  | _ => false

/-- Does a result carry a driver exception passed through unchanged? -/
def isDriverPassRes : Except PyErr RetVal → Bool
  | Except.error (PyErr.driverPass _) => true
  | _ => false

/-- Is a result exactly the empty-list return value? -/
def isEmptyListRes : Except PyErr RetVal → Bool
  | Except.ok RetVal.emptyList => true
  | _ => false

/-- A raw UPDATE statement containing a single-quoted None, a double-quoted
None, a None inside a longer identifier, and a bare None literal. -/
def c9ExampleIn : L :=
  "UPDATE t SET a = ".data ++ [squote] ++ "None".data ++ [squote]
    ++ ", b = ".data ++ [dquote] ++ "None".data ++ [dquote]
    ++ ", c = NoneType WHERE d = None".data

/-- The same statement after the None-to-NULL rewriting. -/
def c9ExampleOut : L :=
  "UPDATE t SET a = NULL, b = NULL, c = NULLType WHERE d = NULL".data

theorem dropToNewline_length : ∀ (s r : L), dropToNewline s = some r → r.length < s.length := by
  intro s
  induction s with
  | nil => intro r h; simp [dropToNewline] at h
  | cons c cs ih =>
    intro r h
    simp only [dropToNewline] at h
    by_cases hc : c == '\n'
    · simp [hc] at h
      subst h
      simp
    · simp [hc] at h
      have := ih r h
      simp only [List.length_cons]
      omega

theorem ciEq_iff {a b : Char} : ciEq a b = true ↔ upChar a = upChar b := by
  simp [ciEq]

theorem ciEq_symm {a b : Char} (h : ciEq a b = true) : ciEq b a = true := by
  rw [ciEq_iff] at h ⊢
  exact h.symm

theorem upChar_of_isWS {c : Char} (h : isWS c = true) : upChar c = c := by
  simp only [isWS, Bool.or_eq_true, beq_iff_eq] at h
  rcases h with (((((h | h) | h) | h) | h) | h) <;> subst h <;> decide

theorem isWS_of_ciEq_ws {w c : Char} (hw : isWS w = true) (h : ciEq w c = true) :
    isWS (upChar c) = true := by
  rw [ciEq_iff, upChar_of_isWS hw] at h
  rw [← h]
  exact hw

theorem ciStarts_nil_pat (s : L) : ciStarts [] s = true := by
  cases s <;> rfl

theorem ciStarts_cons_iff {a c : Char} {v s : L} :
    ciStarts (a :: v) (c :: s) = true ↔ (ciEq a c = true ∧ ciStarts v s = true) := by
  simp [ciStarts]

theorem ciStarts_cons_nil (a : Char) (v : L) : ciStarts (a :: v) [] = false := rfl

theorem ciStarts_length : ∀ {v s : L}, ciStarts v s = true → v.length ≤ s.length := by
  intro v
  induction v with
  | nil => intro s _; simp
  | cons a v ih =>
    intro s h
    cases s with
    | nil => simp [ciStarts] at h
    | cons c s =>
      rcases ciStarts_cons_iff.mp h with ⟨_, h2⟩
      have := ih h2
      simp only [List.length_cons]
      omega

theorem ciStarts_append_left : ∀ {v a : L} (b : L), ciStarts v a = true → ciStarts v (a ++ b) = true := by
  intro v
  induction v with
  | nil => intro a b _; exact ciStarts_nil_pat _
  | cons x v ih =>
    intro a b h
    cases a with
    | nil => simp [ciStarts] at h
    | cons c a =>
      rcases ciStarts_cons_iff.mp h with ⟨h1, h2⟩
      exact ciStarts_cons_iff.mpr ⟨h1, ih b h2⟩

theorem ciStarts_of_isPre {v p l : L} (h : ciStarts v p = true) (hp : p <+: l) :
    ciStarts v l = true := by
  obtain ⟨t, rfl⟩ := hp
  exact ciStarts_append_left t h

theorem ciStarts_to_fit : ∀ {v s : L}, ciStarts v s = true → ciFit v s = true := by
  intro v
  induction v with
  | nil => intro s _; rfl
  | cons x v ih =>
    intro s h
    cases s with
    | nil => simp [ciStarts] at h
    | cons c s =>
      rcases ciStarts_cons_iff.mp h with ⟨h1, h2⟩
      simp only [ciFit, List.zip_cons_cons, List.all_cons, Bool.and_eq_true]
      exact And.intro h1 (ih h2)

theorem ciFit_nil_left (b : L) : ciFit [] b = true := rfl

theorem ciFit_nil_right (v : L) : ciFit v [] = true := by
  cases v <;> rfl

theorem ciFit_cons_iff {x c : Char} {v s : L} :
    ciFit (x :: v) (c :: s) = true ↔ (ciEq x c = true ∧ ciFit v s = true) := by
  simp [ciFit]

theorem ciFit_append_left : ∀ {v a : L} (b : L), ciFit v (a ++ b) = true → ciFit v a = true := by
  intro v
  induction v with
  | nil => intro a b _; rfl
  | cons x v ih =>
    intro a b h
    cases a with
    | nil => exact ciFit_nil_right _
    | cons c a =>
      rw [List.cons_append] at h
      rcases ciFit_cons_iff.mp h with ⟨h1, h2⟩
      exact ciFit_cons_iff.mpr ⟨h1, ih b h2⟩

theorem ciStarts_append_fit {v a : L} (b : L) (h : ciStarts v (a ++ b) = true) :
    ciFit v a = true :=
  ciFit_append_left b (ciStarts_to_fit h)

theorem ciFit_symm : ∀ {a b : L}, ciFit a b = true → ciFit b a = true := by
  intro a
  induction a with
  | nil => intro b _; exact ciFit_nil_right _
  | cons x a ih =>
    intro b h
    cases b with
    | nil => rfl
    | cons c b =>
      rcases ciFit_cons_iff.mp h with ⟨h1, h2⟩
      exact ciFit_cons_iff.mpr ⟨ciEq_symm h1, ih h2⟩

theorem ciStarts_excl : ∀ {v1 v2 s : L}, ciStarts v1 s = true → ciStarts v2 s = true →
    ciFit v1 v2 = true := by
  intro v1
  induction v1 with
  | nil => intro v2 s _ _; rfl
  | cons x v1 ih =>
    intro v2 s h1 h2
    cases s with
    | nil => simp [ciStarts] at h1
    | cons c s =>
      cases v2 with
      | nil => exact ciFit_nil_right _
      | cons y v2 =>
        rcases ciStarts_cons_iff.mp h1 with ⟨hx, hv1⟩
        rcases ciStarts_cons_iff.mp h2 with ⟨hy, hv2⟩
        refine ciFit_cons_iff.mpr ⟨?_, ih hv1 hv2⟩
        rw [ciEq_iff] at hx hy ⊢
        rw [hx, hy]

theorem ciStarts_append_elim_disjoint :
    ∀ {v x : L} (b : L), (∀ a ∈ v, ∀ c ∈ b, ciEq a c = false) →
      ciStarts v (x ++ b) = true → ciStarts v x = true := by
  intro v
  induction v with
  | nil => intro x b _ _; exact ciStarts_nil_pat _
  | cons a v ih =>
    intro x b hd h
    cases x with
    | nil =>
      rw [List.nil_append] at h
      cases b with
      | nil => simp [ciStarts] at h
      | cons c b =>
        rcases ciStarts_cons_iff.mp h with ⟨h1, _⟩
        have := hd a (by simp) c (by simp)
        rw [this] at h1
        cases h1
    | cons c x =>
      rw [List.cons_append] at h
      rcases ciStarts_cons_iff.mp h with ⟨h1, h2⟩
      refine ciStarts_cons_iff.mpr ⟨h1, ih b ?_ h2⟩
      intro a' ha' c' hc'
      exact hd a' (by simp [ha']) c' hc'

theorem ciHas_nil_pat (s : L) : ciHas [] s = true := by
  cases s with
  | nil => rfl
  | cons c s => simp [ciHas, ciStarts_nil_pat]

theorem ciHas_cons_iff {c : Char} {n s : L} :
    ciHas n (c :: s) = true ↔ (ciStarts n (c :: s) = true ∨ ciHas n s = true) := by
  simp [ciHas]

theorem ciHas_of_starts : ∀ {n s : L}, ciStarts n s = true → ciHas n s = true := by
  intro n s h
  cases s with
  | nil => exact h
  | cons c s => exact ciHas_cons_iff.mpr (Or.inl h)

theorem ciHas_nil_iff {n : L} : ciHas n [] = true ↔ n = [] := by
  cases n with
  | nil => simp [ciHas, ciStarts]
  | cons a n => simp [ciHas, ciStarts]

theorem ciHas_append_right : ∀ (u : L) {n t : L}, ciHas n t = true → ciHas n (u ++ t) = true := by
  intro u
  induction u with
  | nil => intro n t h; exact h
  | cons c u ih =>
    intro n t h
    exact ciHas_cons_iff.mpr (Or.inr (ih h))

theorem ciHas_append_left_ext : ∀ {m : L} (v : L) {n : L}, ciHas n m = true →
    ciHas n (m ++ v) = true := by
  intro m
  induction m with
  | nil =>
    intro v n h
    rw [ciHas_nil_iff] at h
    subst h
    exact ciHas_nil_pat _
  | cons c m ih =>
    intro v n h
    rcases ciHas_cons_iff.mp h with h | h
    · exact ciHas_of_starts (ciStarts_append_left v h)
    · exact ciHas_cons_iff.mpr (Or.inr (ih v h))

theorem ciHas_append_both (u v : L) {n m : L} (h : ciHas n m = true) :
    ciHas n (u ++ (m ++ v)) = true :=
  ciHas_append_right u (ciHas_append_left_ext v h)

theorem ciHas_append_elim_disjoint :
    ∀ {u : L} {n t : L}, (∀ a ∈ n, ∀ b ∈ u, ciEq a b = false) → n ≠ [] →
      ciHas n (u ++ t) = true → ciHas n t = true := by
  intro u
  induction u with
  | nil => intro n t _ _ h; exact h
  | cons c u ih =>
    intro n t hd hne h
    rw [List.cons_append] at h
    rcases ciHas_cons_iff.mp h with h | h
    · cases n with
      | nil => exact absurd rfl hne
      | cons a n =>
        rcases ciStarts_cons_iff.mp h with ⟨h1, _⟩
        have := hd a (by simp) c (by simp)
        rw [this] at h1
        cases h1
    · refine ih ?_ hne h
      intro a ha b hb
      exact hd a ha b (by simp [hb])

theorem ciHas_append_elim_fit :
    ∀ {u : L} {n t : L}, (∀ d, d < u.length → ciFit n (u.drop d) = false) →
      ciHas n (u ++ t) = true → ciHas n t = true := by
  intro u
  induction u with
  | nil => intro n t _ h; exact h
  | cons c u ih =>
    intro n t hocc h
    rw [List.cons_append] at h
    rcases ciHas_cons_iff.mp h with h | h
    · have h' : ciStarts n ((c :: u) ++ t) = true := by
        rw [List.cons_append]
        exact h
      have hfit : ciFit n (c :: u) = true := ciStarts_append_fit t h'
      have := hocc 0 (by simp)
      rw [List.drop_zero] at this
      rw [this] at hfit
      cases hfit
    · refine ih ?_ h
      intro d hd
      have := hocc (d + 1) (by simp; omega)
      simpa using this

theorem replaceGo_nil (pat rep : L) (f : Nat) : replaceGo pat rep f [] = [] := by
  cases f <;> rfl

theorem pat_pos_of_guard {pat : L} {c : Char} {cs : L}
    (h : (!pat.isEmpty && pat.isPrefixOf (c :: cs)) = true) : 0 < pat.length := by
  have h1 : (!pat.isEmpty) = true := (Bool.and_eq_true _ _ ▸ h).1
  cases pat with
  | nil => simp [List.isEmpty] at h1
  | cons a as => simp

theorem replaceGo_fuel (pat rep : L) :
    ∀ f1 : Nat, ∀ (f2 : Nat) (s : L), s.length ≤ f1 → s.length ≤ f2 →
      replaceGo pat rep f1 s = replaceGo pat rep f2 s := by
  intro f1
  induction f1 with
  | zero =>
    intro f2 s h1 _
    have : s = [] := by
      cases s with
      | nil => rfl
      | cons c cs => simp at h1
    subst this
    rw [replaceGo_nil, replaceGo_nil]
  | succ n ih =>
    intro f2 s h1 h2
    cases s with
    | nil => rw [replaceGo_nil, replaceGo_nil]
    | cons c cs =>
      cases f2 with
      | zero => simp at h2
      | succ m =>
        by_cases hg : (!pat.isEmpty && pat.isPrefixOf (c :: cs)) = true
        · have hp := pat_pos_of_guard hg
          have hlen : ((c :: cs).drop pat.length).length ≤ n := by
            simp only [List.length_drop, List.length_cons]
            simp only [List.length_cons] at h1
            omega
          have hlen2 : ((c :: cs).drop pat.length).length ≤ m := by
            simp only [List.length_drop, List.length_cons]
            simp only [List.length_cons] at h2
            omega
          simp only [replaceGo, hg, if_true]
          rw [ih m _ hlen hlen2]
        · have hlen : cs.length ≤ n := by
            simp only [List.length_cons] at h1
            omega
          have hlen2 : cs.length ≤ m := by
            simp only [List.length_cons] at h2
            omega
          simp only [replaceGo, hg, Bool.false_eq_true, if_false]
          rw [ih m _ hlen hlen2]

theorem replaceL_nil (pat rep : L) : replaceL pat rep [] = [] := rfl

theorem replaceL_pos (pat rep : L) (c : Char) (cs : L)
    (h : (!pat.isEmpty && pat.isPrefixOf (c :: cs)) = true) :
    replaceL pat rep (c :: cs) = rep ++ replaceL pat rep ((c :: cs).drop pat.length) := by
  have hp := pat_pos_of_guard h
  show replaceGo pat rep (c :: cs).length (c :: cs) = _
  rw [List.length_cons]
  simp only [replaceGo, h, if_true]
  rw [replaceL]
  congr 1
  refine replaceGo_fuel pat rep cs.length _ _ ?_ (le_refl _)
  simp only [List.length_drop, List.length_cons]
  omega

theorem replaceL_neg (pat rep : L) (c : Char) (cs : L)
    (h : ¬ ((!pat.isEmpty && pat.isPrefixOf (c :: cs)) = true)) :
    replaceL pat rep (c :: cs) = c :: replaceL pat rep cs := by
  show replaceGo pat rep (c :: cs).length (c :: cs) = _
  rw [List.length_cons]
  simp only [replaceGo, h, Bool.false_eq_true, if_false]
  rw [replaceL]

/-- Recursion principle following the scanning structure of `replaceL`. -/
theorem replaceL_rec (pat : L) (motive : L → Prop)
    (base : motive [])
    (pos : ∀ c cs, (!pat.isEmpty && pat.isPrefixOf (c :: cs)) = true →
      motive ((c :: cs).drop pat.length) → motive (c :: cs))
    (neg : ∀ c cs, ¬ ((!pat.isEmpty && pat.isPrefixOf (c :: cs)) = true) →
      motive cs → motive (c :: cs)) : ∀ s, motive s := by
  have H : ∀ (n : Nat) (s : L), s.length = n → motive s := by
    intro n
    induction n using Nat.strong_induction_on with
    | _ n ih =>
      intro s hn
      cases s with
      | nil => exact base
      | cons c cs =>
        by_cases hg : (!pat.isEmpty && pat.isPrefixOf (c :: cs)) = true
        · refine pos c cs hg (ih _ ?_ _ rfl)
          have hp := pat_pos_of_guard hg
          subst hn
          simp only [List.length_drop, List.length_cons]
          omega
        · refine neg c cs hg (ih _ ?_ _ rfl)
          subst hn
          simp
  intro s
  exact H s.length s rfl

theorem fitCond_shift {x : Char} {v pat : L}
    (h : ∀ d, d < (x :: v).length → ciFit ((x :: v).drop d) pat = false) :
    ∀ d, d < v.length → ciFit (v.drop d) pat = false := by
  intro d hd
  have := h (d + 1) (by simp only [List.length_cons]; omega)
  simpa using this

/-- If no suffix of the matcher word `v` is case-insensitively compatible
with the pattern, then replacement cannot disturb a match of `v` at the
start of the text. -/
theorem replaceL_keeps_starts (pat rep : L) (s : L) :
    ∀ v : L, (∀ d, d < v.length → ciFit (v.drop d) pat = false) →
      ciStarts v s = true → ciStarts v (replaceL pat rep s) = true := by
  induction s using replaceL_rec pat with
  | base =>
    intro v _ hs
    rw [replaceL_nil]
    exact hs
  | pos c cs hg ih =>
    rw [replaceL_pos pat rep c cs hg]
    have hg2 : pat.isPrefixOf (c :: cs) = true := by
      have := hg
      simp only [Bool.and_eq_true] at this
      exact this.2
    obtain ⟨t, ht⟩ := List.isPrefixOf_iff_prefix.mp hg2
    intro v hcond hs
    cases v with
    | nil => exact ciStarts_nil_pat _
    | cons a v' =>
      exfalso
      rw [← ht] at hs
      have hfit := ciStarts_append_fit t hs
      have := hcond 0 (by simp)
      rw [List.drop_zero] at this
      rw [this] at hfit
      cases hfit
  | neg c cs hg ih =>
    rw [replaceL_neg pat rep c cs hg]
    intro v hcond hs
    cases v with
    | nil => exact ciStarts_nil_pat _
    | cons a v' =>
      rcases ciStarts_cons_iff.mp hs with ⟨h1, h2⟩
      exact ciStarts_cons_iff.mpr ⟨h1, ih v' (fitCond_shift hcond) h2⟩

/-- If no suffix of the matcher word `v` is case-insensitively compatible
with the replacement text, then replacement cannot create a match of `v` at
the start of the text. -/
theorem replaceL_reflects_starts (pat rep : L) (s : L) :
    ∀ v : L, (∀ d, d < v.length → ciFit (v.drop d) rep = false) →
      ciStarts v (replaceL pat rep s) = true → ciStarts v s = true := by
  induction s using replaceL_rec pat with
  | base =>
    intro v _ hs
    rw [replaceL_nil] at hs
    exact hs
  | pos c cs hg ih =>
    rw [replaceL_pos pat rep c cs hg]
    intro v hcond hs
    cases v with
    | nil => exact ciStarts_nil_pat _
    | cons a v' =>
      exfalso
      have hfit := ciStarts_append_fit _ hs
      have := hcond 0 (by simp)
      rw [List.drop_zero] at this
      rw [this] at hfit
      cases hfit
  | neg c cs hg ih =>
    rw [replaceL_neg pat rep c cs hg]
    intro v hcond hs
    cases v with
    | nil => exact ciStarts_nil_pat _
    | cons a v' =>
      rcases ciStarts_cons_iff.mp hs with ⟨h1, h2⟩
      exact ciStarts_cons_iff.mpr ⟨h1, ih v' (fitCond_shift hcond) h2⟩

/-- If the matcher word is character-disjoint from the replacement text,
replacement cannot create a match of the word at the start of the text. -/
theorem replaceL_reflects_starts_disjoint (pat rep : L) (hrep : rep ≠ []) (s : L) :
    ∀ w : L, (∀ a ∈ w, ∀ b ∈ rep, ciEq a b = false) →
      ciStarts w (replaceL pat rep s) = true → ciStarts w s = true := by
  induction s using replaceL_rec pat with
  | base =>
    intro w _ hs
    rw [replaceL_nil] at hs
    exact hs
  | pos c cs hg ih =>
    rw [replaceL_pos pat rep c cs hg]
    intro w hd hs
    cases w with
    | nil => exact ciStarts_nil_pat _
    | cons a w' =>
      exfalso
      cases hb : rep with
      | nil => exact hrep hb
      | cons b rep' =>
        rw [hb, List.cons_append] at hs
        rcases ciStarts_cons_iff.mp hs with ⟨h1, _⟩
        have := hd a (by simp) b (by simp [hb])
        rw [this] at h1
        cases h1
  | neg c cs hg ih =>
    rw [replaceL_neg pat rep c cs hg]
    intro w hd hs
    cases w with
    | nil => exact ciStarts_nil_pat _
    | cons a w' =>
      rcases ciStarts_cons_iff.mp hs with ⟨h1, h2⟩
      refine ciStarts_cons_iff.mpr ⟨h1, ih w' ?_ h2⟩
      intro a' ha' b hb
      exact hd a' (by simp [ha']) b hb

/-- If the searched word is character-disjoint from the replacement text,
replacement cannot create an occurrence of the word anywhere. -/
theorem replaceL_reflects_has (pat rep : L) (hrep : rep ≠ []) (n : L) (hne : n ≠ [])
    (hd : ∀ a ∈ n, ∀ b ∈ rep, ciEq a b = false) (s : L) :
    ciHas n (replaceL pat rep s) = true → ciHas n s = true := by
  induction s using replaceL_rec pat with
  | base =>
    rw [replaceL_nil]
    exact id
  | pos c cs hg ih =>
    rw [replaceL_pos pat rep c cs hg]
    intro hs
    have hg2 : pat.isPrefixOf (c :: cs) = true := by
      have := hg
      simp only [Bool.and_eq_true] at this
      exact this.2
    obtain ⟨t, ht⟩ := List.isPrefixOf_iff_prefix.mp hg2
    have hs' : ciHas n (replaceL pat rep ((c :: cs).drop pat.length)) = true :=
      ciHas_append_elim_disjoint hd hne hs
    have h3 := ih hs'
    rw [← ht, List.drop_left] at h3
    rw [← ht]
    exact ciHas_append_right pat h3
  | neg c cs hg ih =>
    rw [replaceL_neg pat rep c cs hg]
    intro hs
    rcases ciHas_cons_iff.mp hs with h | h
    · cases n with
      | nil => exact ciHas_nil_pat _
      | cons a n' =>
        rcases ciStarts_cons_iff.mp h with ⟨h1, h2⟩
        have h3 : ciStarts n' cs = true := by
          refine replaceL_reflects_starts_disjoint pat rep hrep cs n' ?_ h2
          intro a' ha' b hb
          exact hd a' (by simp [ha']) b hb
        exact ciHas_of_starts (ciStarts_cons_iff.mpr ⟨h1, h3⟩)
    · exact ciHas_cons_iff.mpr (Or.inr (ih h))

/-- If the searched word cannot overlap the pattern at any offset, the
replacement preserves every occurrence of the word. -/
theorem replaceL_keeps_has (pat rep : L) (n : L) (hne : n ≠ [])
    (hS1 : ∀ d, 1 ≤ d → d < pat.length → ciFit n (pat.drop d) = false)
    (hS2 : ∀ d, d < n.length → ciFit (n.drop d) pat = false) (s : L) :
    ciHas n s = true → ciHas n (replaceL pat rep s) = true := by
  induction s using replaceL_rec pat with
  | base =>
    rw [replaceL_nil]
    exact id
  | pos c cs hg ih =>
    rw [replaceL_pos pat rep c cs hg]
    intro hs
    have hg2 : pat.isPrefixOf (c :: cs) = true := by
      have := hg
      simp only [Bool.and_eq_true] at this
      exact this.2
    obtain ⟨t, ht⟩ := List.isPrefixOf_iff_prefix.mp hg2
    have hocc : ∀ d, d < pat.length → ciFit n (pat.drop d) = false := by
      intro d hdlt
      cases d with
      | zero =>
        rw [List.drop_zero]
        have h0 : 0 < n.length := by
          cases n with
          | nil => exact absurd rfl hne
          | cons a n' => simp
        have := hS2 0 h0
        rw [List.drop_zero] at this
        exact this
      | succ d' => exact hS1 (d' + 1) (by omega) hdlt
    have hst : ciHas n (pat ++ t) = true := by
      rw [ht]
      exact hs
    have ht' : ciHas n t = true := ciHas_append_elim_fit hocc hst
    have hdrop : ciHas n ((c :: cs).drop pat.length) = true := by
      rw [← ht, List.drop_left]
      exact ht'
    exact ciHas_append_right rep (ih hdrop)
  | neg c cs hg ih =>
    rw [replaceL_neg pat rep c cs hg]
    intro hs
    rcases ciHas_cons_iff.mp hs with h | h
    · cases n with
      | nil => exact ciHas_nil_pat _
      | cons a n' =>
        rcases ciStarts_cons_iff.mp h with ⟨h1, h2⟩
        have h3 : ciStarts n' (replaceL pat rep cs) = true := by
          refine replaceL_keeps_starts pat rep cs n' ?_ h2
          intro d hdlt
          have := hS2 (d + 1) (by simp only [List.length_cons]; omega)
          simpa using this
        exact ciHas_of_starts (ciStarts_cons_iff.mpr ⟨h1, h3⟩)
    · exact ciHas_cons_iff.mpr (Or.inr (ih h))

/-- The head of the replaced text is the head of the original text or the
head of the replacement. -/
theorem replaceL_head_some (pat rep : L) (hrep : rep ≠ []) (s : L) (c : Char)
    (h : (replaceL pat rep s).head? = some c) :
    s.head? = some c ∨ rep.head? = some c := by
  cases s with
  | nil =>
    rw [replaceL_nil] at h
    cases h
  | cons c' cs =>
    by_cases hg : (!pat.isEmpty && pat.isPrefixOf (c' :: cs)) = true
    · rw [replaceL_pos pat rep c' cs hg] at h
      cases hb : rep with
      | nil => exact absurd hb hrep
      | cons b rep' =>
        rw [hb, List.cons_append] at h
        right
        simp only [List.head?_cons, Option.some.injEq] at h ⊢
        exact h
    · rw [replaceL_neg pat rep c' cs hg] at h
      left
      simp only [List.head?_cons, Option.some.injEq] at h ⊢
      exact h

theorem head?_dropWhile_notP {p : Char → Bool} {l : L} {c : Char}
    (h : (List.dropWhile p l).head? = some c) : p c = false := by
  induction l with
  | nil => simp [List.dropWhile] at h
  | cons a as ih =>
    rw [List.dropWhile_cons] at h
    by_cases hp : p a
    · simp [hp] at h
      exact ih h
    · simp [hp] at h
      subst h
      simp [hp]

theorem trimR_isPre (s : L) : trimR s <+: s := by
  have : trimR s = List.rdropWhile isWS s := rfl
  rw [this]
  exact List.rdropWhile_prefix isWS s

theorem trimR_decomp (s : L) :
    ∃ b, s = trimR s ++ b ∧ ∀ c ∈ b, isWS c = true := by
  refine ⟨(s.reverse.takeWhile isWS).reverse, ?_, ?_⟩
  · have h := List.takeWhile_append_dropWhile isWS s.reverse
    have h2 := congrArg List.reverse h
    rw [List.reverse_append, List.reverse_reverse] at h2
    rw [trimR]
    exact h2.symm
  · intro c hc
    rw [List.mem_reverse] at hc
    exact List.mem_takeWhile_imp hc

theorem head?_of_isPre {p l : L} {c : Char} (hp : p <+: l) (h : p.head? = some c) :
    l.head? = some c := by
  obtain ⟨t, rfl⟩ := hp
  cases p with
  | nil => cases h
  | cons a as =>
    simp only [List.head?_cons, Option.some.injEq] at h
    simp [h]

theorem pyStrip_head_nonws {s : L} {c : Char} (h : (pyStrip s).head? = some c) :
    isWS c = false := by
  have h2 : (s.dropWhile isWS).head? = some c :=
    head?_of_isPre (trimR_isPre (s.dropWhile isWS)) h
  exact head?_dropWhile_notP h2

theorem dropWhile_eq_self_of_head {l : L} {c : Char} (hl : l.head? = some c)
    (hc : isWS c = false) : l.dropWhile isWS = l := by
  cases l with
  | nil => cases hl
  | cons a as =>
    simp only [List.head?_cons, Option.some.injEq] at hl
    subst hl
    rw [List.dropWhile_cons]
    simp [hc]

theorem nonws_of_ciEq {a c : Char} (ha : isWS (upChar a) = false) (h : ciEq a c = true) :
    isWS c = false := by
  cases hc : isWS c with
  | false => rfl
  | true =>
    exfalso
    have := isWS_of_ciEq_ws hc (ciEq_symm h)
    rw [this] at ha
    cases ha

theorem wsDisjoint {n b : L} (hn : ∀ a ∈ n, isWS (upChar a) = false)
    (hb : ∀ c ∈ b, isWS c = true) : ∀ a ∈ n, ∀ c ∈ b, ciEq a c = false := by
  intro a ha c hc
  cases h : ciEq a c with
  | false => rfl
  | true =>
    exfalso
    have := isWS_of_ciEq_ws (hb c hc) (ciEq_symm h)
    rw [hn a ha] at this
    cases this

theorem ciHas_elim_ws_right :
    ∀ {x b n : L}, (∀ c ∈ b, isWS c = true) → (∀ a ∈ n, isWS (upChar a) = false) →
      n ≠ [] → ciHas n (x ++ b) = true → ciHas n x = true := by
  intro x
  induction x with
  | nil =>
    intro b n hb hn hne h
    rw [List.nil_append] at h
    have h2 : ciHas n (b ++ []) = true := by
      rw [List.append_nil]
      exact h
    exact ciHas_append_elim_disjoint (wsDisjoint hn hb) hne h2
  | cons c x ih =>
    intro b n hb hn hne h
    rw [List.cons_append] at h
    rcases ciHas_cons_iff.mp h with h | h
    · have h' : ciStarts n ((c :: x) ++ b) = true := by
        rw [List.cons_append]
        exact h
      have := ciStarts_append_elim_disjoint b (wsDisjoint hn hb) h'
      exact ciHas_of_starts this
    · exact ciHas_cons_iff.mpr (Or.inr (ih hb hn hne h))

theorem ciHas_pyStrip_of_has {n s : L} (hn : ∀ a ∈ n, isWS (upChar a) = false)
    (hne : n ≠ []) (h : ciHas n s = true) : ciHas n (pyStrip s) = true := by
  have hsplit := List.takeWhile_append_dropWhile isWS s
  have h1 : ciHas n (s.dropWhile isWS) = true := by
    have hws : ∀ c ∈ s.takeWhile isWS, isWS c = true := fun c hc => List.mem_takeWhile_imp hc
    refine ciHas_append_elim_disjoint (wsDisjoint hn hws) hne ?_
    rw [hsplit]
    exact h
  obtain ⟨b, hdec, hwsb⟩ := trimR_decomp (s.dropWhile isWS)
  rw [pyStrip]
  refine ciHas_elim_ws_right hwsb hn hne ?_
  rw [← hdec]
  exact h1

theorem ciHas_of_pyStrip {n s : L} (h : ciHas n (pyStrip s) = true) : ciHas n s = true := by
  obtain ⟨b, hdec, _⟩ := trimR_decomp (s.dropWhile isWS)
  have h1 : ciHas n (s.dropWhile isWS) = true := by
    rw [hdec]
    exact ciHas_append_left_ext b h
  have hsplit := List.takeWhile_append_dropWhile isWS s
  rw [← hsplit]
  exact ciHas_append_right _ h1

theorem replace_none_w_null_eq (s : L) : replace_none_w_null s = pyStrip (rep3 s) := rfl

theorem rep3_keeps_starts (v : L)
    (h1 : ∀ d, d < v.length → ciFit (v.drop d) patNoneSQ = false)
    (h2 : ∀ d, d < v.length → ciFit (v.drop d) patNoneDQ = false)
    (h3 : ∀ d, d < v.length → ciFit (v.drop d) patNone = false)
    {t : L} (h : ciStarts v t = true) : ciStarts v (rep3 t) = true := by
  have ha := replaceL_keeps_starts patNoneSQ repNULL t v h1 h
  have hb := replaceL_keeps_starts patNoneDQ repNULL _ v h2 ha
  exact replaceL_keeps_starts patNone repNULL _ v h3 hb

theorem rep3_reflects_starts (v : L)
    (h4 : ∀ d, d < v.length → ciFit (v.drop d) repNULL = false)
    {t : L} (h : ciStarts v (rep3 t) = true) : ciStarts v t = true := by
  have ha := replaceL_reflects_starts patNone repNULL _ v h4 h
  have hb := replaceL_reflects_starts patNoneDQ repNULL _ v h4 ha
  exact replaceL_reflects_starts patNoneSQ repNULL t v h4 hb

theorem rep3_keeps_has (n : L) (hne : n ≠ [])
    (hS1sq : ∀ d, 1 ≤ d → d < patNoneSQ.length → ciFit n (patNoneSQ.drop d) = false)
    (hS2sq : ∀ d, d < n.length → ciFit (n.drop d) patNoneSQ = false)
    (hS1dq : ∀ d, 1 ≤ d → d < patNoneDQ.length → ciFit n (patNoneDQ.drop d) = false)
    (hS2dq : ∀ d, d < n.length → ciFit (n.drop d) patNoneDQ = false)
    (hS1b : ∀ d, 1 ≤ d → d < patNone.length → ciFit n (patNone.drop d) = false)
    (hS2b : ∀ d, d < n.length → ciFit (n.drop d) patNone = false)
    {t : L} (h : ciHas n t = true) : ciHas n (rep3 t) = true := by
  have ha := replaceL_keeps_has patNoneSQ repNULL n hne hS1sq hS2sq t h
  have hb := replaceL_keeps_has patNoneDQ repNULL n hne hS1dq hS2dq _ ha
  exact replaceL_keeps_has patNone repNULL n hne hS1b hS2b _ hb

theorem rep3_reflects_has (n : L) (hne : n ≠ [])
    (hdisj : ∀ a ∈ n, ∀ b ∈ repNULL, ciEq a b = false)
    {t : L} (h : ciHas n (rep3 t) = true) : ciHas n t = true := by
  have ha := replaceL_reflects_has patNone repNULL (by decide) n hne hdisj _ h
  have hb := replaceL_reflects_has patNoneDQ repNULL (by decide) n hne hdisj _ ha
  exact replaceL_reflects_has patNoneSQ repNULL (by decide) n hne hdisj t hb

theorem rep3_head_nonws {t : L} (hts : ∀ c, t.head? = some c → isWS c = false)
    {c : Char} (h : (rep3 t).head? = some c) : isWS c = false := by
  have hN : repNULL.head? = some 'N' := rfl
  rcases replaceL_head_some _ _ (by decide) _ _ h with hc1 | hc1
  · rcases replaceL_head_some _ _ (by decide) _ _ hc1 with hc2 | hc2
    · rcases replaceL_head_some _ _ (by decide) _ _ hc2 with hc3 | hc3
      · exact hts c hc3
      · rw [hN] at hc3
        cases hc3
        decide
    · rw [hN] at hc2
      cases hc2
      decide
  · rw [hN] at hc1
    cases hc1
    decide

theorem ciStarts_pyStrip_intro {v x : L} (hne : v ≠ [])
    (h5 : ∀ a ∈ v, isWS (upChar a) = false) (h : ciStarts v x = true) :
    ciStarts v (pyStrip x) = true := by
  rw [pyStrip]
  cases v with
  | nil => exact absurd rfl hne
  | cons a v' =>
    cases hx : x with
    | nil =>
      rw [hx, ciStarts_cons_nil] at h
      cases h
    | cons ch rest =>
      rw [hx] at h
      rcases ciStarts_cons_iff.mp h with ⟨hch, _⟩
      have hchnws : isWS ch = false := nonws_of_ciEq (h5 a (by simp)) hch
      have hdw : (ch :: rest).dropWhile isWS = ch :: rest :=
        dropWhile_eq_self_of_head (by simp) hchnws
      rw [hdw]
      obtain ⟨b, hdec, hwsb⟩ := trimR_decomp (ch :: rest)
      refine ciStarts_append_elim_disjoint b (wsDisjoint h5 hwsb) ?_
      rw [← hdec]
      exact h

theorem ciStarts_pyStrip_elim {v x : L} (hx : ∀ c, x.head? = some c → isWS c = false)
    (hne : v ≠ []) (h : ciStarts v (pyStrip x) = true) : ciStarts v x = true := by
  rw [pyStrip] at h
  have h1 : ciStarts v (x.dropWhile isWS) = true := ciStarts_of_isPre h (trimR_isPre _)
  cases hh : x.head? with
  | none =>
    rw [List.head?_eq_none_iff] at hh
    subst hh
    exact h1
  | some c =>
    rw [dropWhile_eq_self_of_head hh (hx c hh)] at h1
    exact h1

theorem prepRaw_starts_iff (v : L) (hne : v ≠ [])
    (h1 : ∀ d, d < v.length → ciFit (v.drop d) patNoneSQ = false)
    (h2 : ∀ d, d < v.length → ciFit (v.drop d) patNoneDQ = false)
    (h3 : ∀ d, d < v.length → ciFit (v.drop d) patNone = false)
    (h4 : ∀ d, d < v.length → ciFit (v.drop d) repNULL = false)
    (h5 : ∀ a ∈ v, isWS (upChar a) = false)
    (sql : L) (params : Option (List Val)) (ntn : Bool) :
    ciStarts v (prepRaw sql params ntn) = true ↔ ciStarts v (pyStrip sql) = true := by
  rw [prepRaw]
  by_cases hc : (params.isNone && ntn) = true
  · rw [if_pos hc, replace_none_w_null_eq]
    constructor
    · intro h
      have ha := ciStarts_pyStrip_elim (fun c hcc => rep3_head_nonws
        (fun c' hc' => pyStrip_head_nonws hc') hcc) hne h
      exact rep3_reflects_starts v h4 ha
    · intro h
      exact ciStarts_pyStrip_intro hne h5 (rep3_keeps_starts v h1 h2 h3 h)
  · rw [if_neg hc]

theorem prepRaw_has_iff (n : L) (hne : n ≠ [])
    (hdisj : ∀ a ∈ n, ∀ b ∈ repNULL, ciEq a b = false)
    (hS1sq : ∀ d, 1 ≤ d → d < patNoneSQ.length → ciFit n (patNoneSQ.drop d) = false)
    (hS2sq : ∀ d, d < n.length → ciFit (n.drop d) patNoneSQ = false)
    (hS1dq : ∀ d, 1 ≤ d → d < patNoneDQ.length → ciFit n (patNoneDQ.drop d) = false)
    (hS2dq : ∀ d, d < n.length → ciFit (n.drop d) patNoneDQ = false)
    (hS1b : ∀ d, 1 ≤ d → d < patNone.length → ciFit n (patNone.drop d) = false)
    (hS2b : ∀ d, d < n.length → ciFit (n.drop d) patNone = false)
    (hnws : ∀ a ∈ n, isWS (upChar a) = false)
    (sql : L) (params : Option (List Val)) (ntn : Bool) :
    ciHas n (prepRaw sql params ntn) = true ↔ ciHas n sql = true := by
  rw [prepRaw]
  by_cases hc : (params.isNone && ntn) = true
  · rw [if_pos hc, replace_none_w_null_eq]
    constructor
    · intro h
      have ha := ciHas_of_pyStrip h
      have hb := rep3_reflects_has n hne hdisj ha
      exact ciHas_of_pyStrip hb
    · intro h
      have ha := ciHas_pyStrip_of_has hnws hne h
      have hb := rep3_keeps_has n hne hS1sq hS2sq hS1dq hS2dq hS1b hS2b ha
      exact ciHas_pyStrip_of_has hnws hne hb
  · rw [if_neg hc]
    exact ⟨ciHas_of_pyStrip, ciHas_pyStrip_of_has hnws hne⟩

theorem prepRaw_starts_UPDATE (sql : L) (params : Option (List Val)) (ntn : Bool) :
    ciStarts kwUPDATE (prepRaw sql params ntn) = true ↔
      ciStarts kwUPDATE (pyStrip sql) = true :=
  prepRaw_starts_iff kwUPDATE (by decide) (by decide) (by decide) (by decide)
    (by decide) (by decide) sql params ntn

theorem prepRaw_starts_DELETE (sql : L) (params : Option (List Val)) (ntn : Bool) :
    ciStarts kwDELETE (prepRaw sql params ntn) = true ↔
      ciStarts kwDELETE (pyStrip sql) = true :=
  prepRaw_starts_iff kwDELETE (by decide) (by decide) (by decide) (by decide)
    (by decide) (by decide) sql params ntn

theorem prepRaw_starts_INSERT (sql : L) (params : Option (List Val)) (ntn : Bool) :
    ciStarts kwINSERT (prepRaw sql params ntn) = true ↔
      ciStarts kwINSERT (pyStrip sql) = true :=
  prepRaw_starts_iff kwINSERT (by decide) (by decide) (by decide) (by decide)
    (by decide) (by decide) sql params ntn

theorem prepRaw_starts_CREATE (sql : L) (params : Option (List Val)) (ntn : Bool) :
    ciStarts kwCREATE (prepRaw sql params ntn) = true ↔
      ciStarts kwCREATE (pyStrip sql) = true :=
  prepRaw_starts_iff kwCREATE (by decide) (by decide) (by decide) (by decide)
    (by decide) (by decide) sql params ntn

theorem prepRaw_starts_DROP (sql : L) (params : Option (List Val)) (ntn : Bool) :
    ciStarts kwDROP (prepRaw sql params ntn) = true ↔
      ciStarts kwDROP (pyStrip sql) = true :=
  prepRaw_starts_iff kwDROP (by decide) (by decide) (by decide) (by decide)
    (by decide) (by decide) sql params ntn

theorem prepRaw_has_WHERE (sql : L) (params : Option (List Val)) (ntn : Bool) :
    ciHas kwWHERE (prepRaw sql params ntn) = true ↔ ciHas kwWHERE sql = true :=
  prepRaw_has_iff kwWHERE (by decide) (by decide) (by decide) (by decide) (by decide)
    (by decide) (by decide) (by decide) (by decide) sql params ntn

theorem mkOut_result (raw : L) (c : RunCore) : (mkOut raw c).result = c.result := rfl

theorem run_sql_bridge_eq (sql : L) (params : Option (List Val)) (quiet : Option Bool)
    (ntn : Bool) (creds : Creds) (env : ExecOutcome) :
    run_sql_bridge sql params quiet ntn creds env
      = mkOut (prepRaw sql params ntn)
          (run_core_bridge (prepRaw sql params ntn)
            (lowerL (creds.driver.getD ("mysql".data))) params quiet env) := rfl

theorem run_sql_legacy_eq (sql : L) (params : Option (List Val)) (quiet : Option Bool)
    (ntn : Bool) (env : ExecOutcome) :
    run_sql_legacy sql params quiet ntn env
      = mkOut (prepRaw sql params ntn)
          (run_core_legacy (prepRaw sql params ntn) quiet env) := rfl

theorem run_core_bridge_ddl {raw driver : L} (params : Option (List Val))
    (quiet : Option Bool) (env : ExecOutcome) (h : guardDDL raw driver = true) :
    run_core_bridge raw driver params quiet env
      = guardCore (PyErr.permDDL (ddlMsg raw)) := by
  rw [run_core_bridge, if_pos h]

theorem run_core_bridge_where {raw driver : L} (params : Option (List Val))
    (quiet : Option Bool) (env : ExecOutcome) (h1 : guardDDL raw driver = false)
    (h2 : guardWhere raw = true) :
    run_core_bridge raw driver params quiet env
      = guardCore (PyErr.permWhere (whereMsg raw)) := by
  rw [run_core_bridge, if_neg (by simp [h1]), if_pos h2]

theorem run_core_bridge_exec {raw driver : L} (params : Option (List Val))
    (quiet : Option Bool) (env : ExecOutcome) {d : DriverKind}
    (h1 : guardDDL raw driver = false) (h2 : guardWhere raw = false)
    (hd : driverOf driver = some d) :
    run_core_bridge raw driver params quiet env = execCoreB raw d params quiet env := by
  rw [run_core_bridge, if_neg (by simp [h1]), if_neg (by simp [h2]), hd]

theorem run_core_bridge_value {raw driver : L} (params : Option (List Val))
    (quiet : Option Bool) (env : ExecOutcome)
    (h1 : guardDDL raw driver = false) (h2 : guardWhere raw = false)
    (hd : driverOf driver = none) :
    run_core_bridge raw driver params quiet env
      = guardCore (PyErr.valueError ("Unsupported driver: ".data ++ driver)) := by
  rw [run_core_bridge, if_neg (by simp [h1]), if_neg (by simp [h2]), hd]

theorem run_core_legacy_ddl {raw : L} (quiet : Option Bool) (env : ExecOutcome)
    (h : (ciStarts kwCREATE raw || ciStarts kwDROP raw) = true) :
    run_core_legacy raw quiet env
      = guardCore (PyErr.permDDL ("SQL PERMISSION ERROR: CREATE/DROP not allowed".data)) := by
  rw [run_core_legacy, if_pos h]

theorem run_core_legacy_where {raw : L} (quiet : Option Bool) (env : ExecOutcome)
    (h1 : (ciStarts kwCREATE raw || ciStarts kwDROP raw) = false)
    (h2 : guardWhere raw = true) :
    run_core_legacy raw quiet env
      = guardCore (PyErr.permWhere ("SQL ERROR: UPDATE/DELETE requires WHERE clause".data)) := by
  rw [run_core_legacy, if_neg (by simp [h1]), if_pos h2]

theorem run_core_legacy_exec {raw : L} (quiet : Option Bool) (env : ExecOutcome)
    (h1 : (ciStarts kwCREATE raw || ciStarts kwDROP raw) = false)
    (h2 : guardWhere raw = false) :
    run_core_legacy raw quiet env = execCoreL raw quiet env := by
  rw [run_core_legacy, if_neg (by simp [h1]), if_neg (by simp [h2])]

theorem starts_excl_false {v1 v2 s : L} (hfit : ciFit v1 v2 = false)
    (h : ciStarts v2 s = true) : ciStarts v1 s = false := by
  cases hc : ciStarts v1 s with
  | false => rfl
  | true =>
    exfalso
    have := ciStarts_excl hc h
    rw [hfit] at this
    cases this

theorem guardDDL_false_of_U {raw driver : L} (h : ciStarts kwUPDATE raw = true) :
    guardDDL raw driver = false := by
  rw [guardDDL, starts_excl_false (by decide) h, starts_excl_false (by decide) h]
  simp

theorem guardDDL_false_of_D {raw driver : L} (h : ciStarts kwDELETE raw = true) :
    guardDDL raw driver = false := by
  rw [guardDDL, starts_excl_false (by decide) h, starts_excl_false (by decide) h]
  simp

theorem legacy_ddl_false_of_U {raw : L} (h : ciStarts kwUPDATE raw = true) :
    (ciStarts kwCREATE raw || ciStarts kwDROP raw) = false := by
  rw [starts_excl_false (by decide) h, starts_excl_false (by decide) h]
  rfl

theorem legacy_ddl_false_of_D {raw : L} (h : ciStarts kwDELETE raw = true) :
    (ciStarts kwCREATE raw || ciStarts kwDROP raw) = false := by
  rw [starts_excl_false (by decide) h, starts_excl_false (by decide) h]
  rfl

theorem execCoreB_shape (raw : L) (d : DriverKind) (params : Option (List Val))
    (quiet : Option Bool) (env : ExecOutcome) :
    ∃ r : Except PyErr RetVal,
      execCoreB raw d params quiet env
        = ⟨some d, true, some (quiet.getD (quietAuto raw)),
            some (execSqlOf raw d params), true, r⟩ := by
  cases env with
  | raises e => exact ⟨_, rfl⟩
  | done desc rc lid =>
    cases desc with
    | some rs => exact ⟨_, rfl⟩
    | none =>
      by_cases h1 : (firstCmd raw == kwINSERT) = true
      · refine ⟨Except.ok (RetVal.lastId lid), ?_⟩
        simp only [execCoreB, h1, if_true]
      · by_cases h2 : ((firstCmd raw == kwUPDATE) || (firstCmd raw == kwDELETE)) = true
        · refine ⟨Except.ok (RetVal.affected rc), ?_⟩
          simp only [execCoreB]
          rw [if_neg (by simp [h1]), if_pos h2]
        · refine ⟨Except.ok RetVal.emptyList, ?_⟩
          simp only [execCoreB]
          rw [if_neg (by simp [h1]), if_neg (by simp [h2])]

theorem execCoreL_shape (raw : L) (quiet : Option Bool) (env : ExecOutcome) :
    ∃ r : Except PyErr RetVal,
      execCoreL raw quiet env
        = ⟨some DriverKind.mysql, true, some (quiet.getD (quietAuto raw)),
            some raw, true, r⟩ := by
  cases env with
  | raises e => exact ⟨_, rfl⟩
  | done desc rc lid =>
    simp only [execCoreL]
    by_cases h0 : ((raw.dropWhile isWS) == []) = true
    · exact ⟨Except.error PyErr.indexError, by rw [if_pos h0]⟩
    · rw [if_neg h0]
      by_cases h1 : (firstToken raw == kwSELECT) = true
      · exact ⟨Except.ok (RetVal.rows (desc.getD [])), by rw [if_pos h1]⟩
      · rw [if_neg h1]
        by_cases h2 : (firstToken raw == kwINSERT) = true
        · exact ⟨Except.ok (RetVal.lastId lid), by rw [if_pos h2]⟩
        · rw [if_neg h2]
          by_cases h3 : ((firstToken raw == kwUPDATE) || (firstToken raw == kwDELETE)) = true
          · exact ⟨Except.ok (RetVal.affected rc), by rw [if_pos h3]⟩
          · exact ⟨Except.ok RetVal.emptyList, by rw [if_neg h3]⟩

theorem core_exec_of_connOpened {raw driver : L} {params : Option (List Val)}
    {quiet : Option Bool} {env : ExecOutcome}
    (h : (run_core_bridge raw driver params quiet env).connOpened = true) :
    ∃ d, driverOf driver = some d
      ∧ run_core_bridge raw driver params quiet env = execCoreB raw d params quiet env := by
  by_cases h1 : guardDDL raw driver = true
  · rw [run_core_bridge_ddl params quiet env h1] at h
    cases h
  · have h1' : guardDDL raw driver = false := by
      cases hg : guardDDL raw driver
      · rfl
      · exact absurd hg h1
    by_cases h2 : guardWhere raw = true
    · rw [run_core_bridge_where params quiet env h1' h2] at h
      cases h
    · have h2' : guardWhere raw = false := by
        cases hg : guardWhere raw
        · rfl
        · exact absurd hg h2
      cases hd : driverOf driver with
      | none =>
        rw [run_core_bridge_value params quiet env h1' h2' hd] at h
        cases h
      | some d => exact ⟨d, rfl, run_core_bridge_exec params quiet env h1' h2' hd⟩

theorem coreL_exec_of_connOpened {raw : L} {quiet : Option Bool} {env : ExecOutcome}
    (h : (run_core_legacy raw quiet env).connOpened = true) :
    run_core_legacy raw quiet env = execCoreL raw quiet env := by
  by_cases h1 : (ciStarts kwCREATE raw || ciStarts kwDROP raw) = true
  · rw [run_core_legacy_ddl quiet env h1] at h
    cases h
  · have h1' : (ciStarts kwCREATE raw || ciStarts kwDROP raw) = false := by
      cases hg : (ciStarts kwCREATE raw || ciStarts kwDROP raw)
      · rfl
      · exact absurd hg h1
    by_cases h2 : guardWhere raw = true
    · rw [run_core_legacy_where quiet env h1' h2] at h
      cases h
    · have h2' : guardWhere raw = false := by
        cases hg : guardWhere raw
        · rfl
        · exact absurd hg h2
      exact run_core_legacy_exec quiet env h1' h2'

theorem tok_nonempty {raw w : L} (h : firstToken raw = w) (hw : w ≠ []) :
    ((raw.dropWhile isWS) == []) = false := by
  cases hd : raw.dropWhile isWS with
  | nil =>
    exfalso
    apply hw
    rw [← h, firstToken, hd]
    rfl
  | cons c cs => rfl

theorem mkOut_connOpened (raw : L) (c : RunCore) : (mkOut raw c).connOpened = c.connOpened := rfl

theorem mkOut_quietUsed (raw : L) (c : RunCore) : (mkOut raw c).quietUsed = c.quietUsed := rfl

theorem mkOut_executedSql (raw : L) (c : RunCore) : (mkOut raw c).executedSql = c.executedSql := rfl

theorem mkOut_bridge (raw : L) (c : RunCore) : (mkOut raw c).bridge = c.bridge := rfl

theorem mkOut_closedAfter (raw : L) (c : RunCore) : (mkOut raw c).closedAfter = c.closedAfter := rfl

theorem execCoreB_result_rows (raw : L) (d : DriverKind) (params : Option (List Val))
    (quiet : Option Bool) (rs : List Row) (rc lid : Nat) :
    (execCoreB raw d params quiet (ExecOutcome.done (some rs) rc lid)).result
      = Except.ok (RetVal.rows rs) := rfl

theorem execCoreB_result_raises (raw : L) (d : DriverKind) (params : Option (List Val))
    (quiet : Option Bool) (e : DriverErr) :
    (execCoreB raw d params quiet (ExecOutcome.raises e)).result
      = Except.error (PyErr.sqlExecution ("Failed to execute SQL: ".data ++ e.msg) e) := rfl

theorem execCoreB_result_insert {raw : L} (d : DriverKind) (params : Option (List Val))
    (quiet : Option Bool) (rc lid : Nat) (hc : firstCmd raw = kwINSERT) :
    (execCoreB raw d params quiet (ExecOutcome.done none rc lid)).result
      = Except.ok (RetVal.lastId lid) := by
  simp only [execCoreB]
  rw [if_pos (by simp [hc])]

theorem execCoreB_result_ud {raw : L} (d : DriverKind) (params : Option (List Val))
    (quiet : Option Bool) (rc lid : Nat)
    (hc : firstCmd raw = kwUPDATE ∨ firstCmd raw = kwDELETE) :
    (execCoreB raw d params quiet (ExecOutcome.done none rc lid)).result
      = Except.ok (RetVal.affected rc) := by
  simp only [execCoreB]
  rcases hc with hc | hc <;>
    rw [if_neg (by simp [hc]; decide), if_pos (by simp [hc])]

theorem execCoreB_result_other {raw : L} (d : DriverKind) (params : Option (List Val))
    (quiet : Option Bool) (rc lid : Nat)
    (h1 : firstCmd raw ≠ kwINSERT) (h2 : firstCmd raw ≠ kwUPDATE)
    (h3 : firstCmd raw ≠ kwDELETE) :
    (execCoreB raw d params quiet (ExecOutcome.done none rc lid)).result
      = Except.ok RetVal.emptyList := by
  simp only [execCoreB]
  rw [if_neg (by simp [h1]), if_neg (by simp [h2, h3])]

theorem execCoreL_result_raises (raw : L) (quiet : Option Bool) (e : DriverErr) :
    (execCoreL raw quiet (ExecOutcome.raises e)).result
      = Except.error (PyErr.driverPass e) := rfl

theorem execCoreL_result_select {raw : L} (quiet : Option Bool)
    (desc : Option (List Row)) (rc lid : Nat) (hc : firstToken raw = kwSELECT) :
    (execCoreL raw quiet (ExecOutcome.done desc rc lid)).result
      = Except.ok (RetVal.rows (desc.getD [])) := by
  simp only [execCoreL]
  rw [if_neg (by simp [tok_nonempty hc (by decide)]), if_pos (by simp [hc])]

theorem execCoreL_result_insert {raw : L} (quiet : Option Bool)
    (desc : Option (List Row)) (rc lid : Nat) (hc : firstToken raw = kwINSERT) :
    (execCoreL raw quiet (ExecOutcome.done desc rc lid)).result
      = Except.ok (RetVal.lastId lid) := by
  simp only [execCoreL]
  rw [if_neg (by simp [tok_nonempty hc (by decide)]), if_neg (by simp [hc]; decide),
    if_pos (by simp [hc])]

theorem execCoreL_result_ud {raw : L} (quiet : Option Bool)
    (desc : Option (List Row)) (rc lid : Nat)
    (hc : firstToken raw = kwUPDATE ∨ firstToken raw = kwDELETE) :
    (execCoreL raw quiet (ExecOutcome.done desc rc lid)).result
      = Except.ok (RetVal.affected rc) := by
  simp only [execCoreL]
  rcases hc with hc | hc <;>
    rw [if_neg (by simp [tok_nonempty hc (by decide)]), if_neg (by simp [hc]; decide),
      if_neg (by simp [hc]; decide), if_pos (by simp [hc])]

theorem execCoreL_result_other {raw : L} (quiet : Option Bool)
    (desc : Option (List Row)) (rc lid : Nat) (h0 : firstToken raw ≠ [])
    (h1 : firstToken raw ≠ kwSELECT) (h2 : firstToken raw ≠ kwINSERT)
    (h3 : firstToken raw ≠ kwUPDATE) (h4 : firstToken raw ≠ kwDELETE) :
    (execCoreL raw quiet (ExecOutcome.done desc rc lid)).result
      = Except.ok RetVal.emptyList := by
  simp only [execCoreL]
  rw [if_neg (by simp [tok_nonempty rfl h0]), if_neg (by simp [h1]),
    if_neg (by simp [h2]), if_neg (by simp [h3, h4])]

/-- **C1** (amended).  In the legacy `dbbridge` version the return shape is
decided by classifying the statement's leading verb, exactly as the claim
states: a SELECT statement returns the list of fetched rows, an INSERT
statement returns the cursor's last-insert-id, an UPDATE or DELETE
statement returns the affected-row count, and any other permitted statement
returns the empty list.  In the `db_bridge` version, however, any accepted
statement for which the cursor reports a result set returns the fetched
rows, whatever its leading verb; only statements without a result set are
classified by verb: INSERT returns the last-insert-id, UPDATE or DELETE the
affected-row count, and any other returns the empty list.  Stated over the
prepared raw SQL text; acceptance (guards passed, a connection opened) is
expressed by `connOpened = true`, and the cursor description is part of the
environment hypothesis. -/
theorem c1_return_shape_by_verb
    (sql : L) (params : Option (List Val)) (quiet : Option Bool) (ntn : Bool)
    (creds : Creds) (env : ExecOutcome) (rs : List Row) (rc lid : Nat)
    (desc : Option (List Row)) :
    (env = ExecOutcome.done (some rs) rc lid →
      (run_sql_bridge sql params quiet ntn creds env).connOpened = true →
      (run_sql_bridge sql params quiet ntn creds env).result = Except.ok (RetVal.rows rs))
    ∧ (env = ExecOutcome.done none rc lid →
      firstCmd (prepRaw sql params ntn) = kwINSERT →
      (run_sql_bridge sql params quiet ntn creds env).connOpened = true →
      (run_sql_bridge sql params quiet ntn creds env).result = Except.ok (RetVal.lastId lid))
    ∧ (env = ExecOutcome.done none rc lid →
      (firstCmd (prepRaw sql params ntn) = kwUPDATE
        ∨ firstCmd (prepRaw sql params ntn) = kwDELETE) →
      (run_sql_bridge sql params quiet ntn creds env).connOpened = true →
      (run_sql_bridge sql params quiet ntn creds env).result = Except.ok (RetVal.affected rc))
    ∧ (env = ExecOutcome.done none rc lid →
      firstCmd (prepRaw sql params ntn) ≠ kwINSERT →
      firstCmd (prepRaw sql params ntn) ≠ kwUPDATE →
      firstCmd (prepRaw sql params ntn) ≠ kwDELETE →
      (run_sql_bridge sql params quiet ntn creds env).connOpened = true →
      (run_sql_bridge sql params quiet ntn creds env).result = Except.ok RetVal.emptyList)
    ∧ (env = ExecOutcome.done desc rc lid →
      firstToken (prepRaw sql params ntn) = kwSELECT →
      (run_sql_legacy sql params quiet ntn env).connOpened = true →
      (run_sql_legacy sql params quiet ntn env).result
        = Except.ok (RetVal.rows (desc.getD [])))
    ∧ (env = ExecOutcome.done desc rc lid →
      firstToken (prepRaw sql params ntn) = kwINSERT →
      (run_sql_legacy sql params quiet ntn env).connOpened = true →
      (run_sql_legacy sql params quiet ntn env).result = Except.ok (RetVal.lastId lid))
    ∧ (env = ExecOutcome.done desc rc lid →
      (firstToken (prepRaw sql params ntn) = kwUPDATE
        ∨ firstToken (prepRaw sql params ntn) = kwDELETE) →
      (run_sql_legacy sql params quiet ntn env).connOpened = true →
      (run_sql_legacy sql params quiet ntn env).result = Except.ok (RetVal.affected rc))
    ∧ (env = ExecOutcome.done desc rc lid →
      firstToken (prepRaw sql params ntn) ≠ [] →
      firstToken (prepRaw sql params ntn) ≠ kwSELECT →
      firstToken (prepRaw sql params ntn) ≠ kwINSERT →
      firstToken (prepRaw sql params ntn) ≠ kwUPDATE →
      firstToken (prepRaw sql params ntn) ≠ kwDELETE →
      (run_sql_legacy sql params quiet ntn env).connOpened = true →
      (run_sql_legacy sql params quiet ntn env).result = Except.ok RetVal.emptyList) := by
  refine ⟨?_, ?_, ?_, ?_, ?_, ?_, ?_, ?_⟩
  · intro henv hconn
    subst henv
    rw [run_sql_bridge_eq, mkOut_connOpened] at hconn
    obtain ⟨d, _, heq⟩ := core_exec_of_connOpened hconn
    rw [run_sql_bridge_eq, mkOut_result, heq]
    exact execCoreB_result_rows _ _ _ _ _ _ _
  · intro henv hcmd hconn
    subst henv
    rw [run_sql_bridge_eq, mkOut_connOpened] at hconn
    obtain ⟨d, _, heq⟩ := core_exec_of_connOpened hconn
    rw [run_sql_bridge_eq, mkOut_result, heq]
    exact execCoreB_result_insert _ _ _ _ _ hcmd
  · intro henv hcmd hconn
    subst henv
    rw [run_sql_bridge_eq, mkOut_connOpened] at hconn
    obtain ⟨d, _, heq⟩ := core_exec_of_connOpened hconn
    rw [run_sql_bridge_eq, mkOut_result, heq]
    exact execCoreB_result_ud _ _ _ _ _ hcmd
  · intro henv h1 h2 h3 hconn
    subst henv
    rw [run_sql_bridge_eq, mkOut_connOpened] at hconn
    obtain ⟨d, _, heq⟩ := core_exec_of_connOpened hconn
    rw [run_sql_bridge_eq, mkOut_result, heq]
    exact execCoreB_result_other _ _ _ _ _ h1 h2 h3
  · intro henv hcmd hconn
    subst henv
    rw [run_sql_legacy_eq, mkOut_connOpened] at hconn
    have heq := coreL_exec_of_connOpened hconn
    rw [run_sql_legacy_eq, mkOut_result, heq]
    exact execCoreL_result_select _ _ _ _ hcmd
  · intro henv hcmd hconn
    subst henv
    rw [run_sql_legacy_eq, mkOut_connOpened] at hconn
    have heq := coreL_exec_of_connOpened hconn
    rw [run_sql_legacy_eq, mkOut_result, heq]
    exact execCoreL_result_insert _ _ _ _ hcmd
  · intro henv hcmd hconn
    subst henv
    rw [run_sql_legacy_eq, mkOut_connOpened] at hconn
    have heq := coreL_exec_of_connOpened hconn
    rw [run_sql_legacy_eq, mkOut_result, heq]
    exact execCoreL_result_ud _ _ _ _ hcmd
  · intro henv h0 h1 h2 h3 h4 hconn
    subst henv
    rw [run_sql_legacy_eq, mkOut_connOpened] at hconn
    have heq := coreL_exec_of_connOpened hconn
    rw [run_sql_legacy_eq, mkOut_result, heq]
    exact execCoreL_result_other _ _ _ _ h0 h1 h2 h3 h4

/-- Concrete witness for C1: a SELECT returning its rows, a SHOW whose
cursor reports a result set likewise returning its rows, an INSERT
returning the last-insert id, an UPDATE returning the affected count, and a
non-classified statement returning the empty list. -/
theorem c1_witness :
    (run_sql_bridge ("SELECT a FROM t".data) none none true ⟨some ("mysql".data)⟩
        (ExecOutcome.done (some [[(("a".data : L), (1 : Val))]]) 0 0)).result
      = Except.ok (RetVal.rows [[(("a".data : L), (1 : Val))]])
    ∧ (run_sql_bridge ("SHOW DATABASES".data) none none true ⟨some ("mysql".data)⟩
        (ExecOutcome.done (some [[(("d".data : L), (7 : Val))]]) 0 0)).result
      = Except.ok (RetVal.rows [[(("d".data : L), (7 : Val))]])
    ∧ (run_sql_bridge ("INSERT INTO t VALUES (1)".data) none none true ⟨some ("mysql".data)⟩
        (ExecOutcome.done none 1 42)).result = Except.ok (RetVal.lastId 42)
    ∧ (run_sql_bridge ("UPDATE t SET a = 1 WHERE b = 2".data) none none true
        ⟨some ("mysql".data)⟩ (ExecOutcome.done none 3 0)).result
      = Except.ok (RetVal.affected 3)
    ∧ (run_sql_legacy ("SHOW TABLES".data) none none true
        (ExecOutcome.done none 0 0)).result = Except.ok RetVal.emptyList := by
  refine ⟨?_, ?_, ?_, ?_, ?_⟩
  · exact (c1_return_shape_by_verb ("SELECT a FROM t".data) none none true
      ⟨some ("mysql".data)⟩ (ExecOutcome.done (some [[(("a".data : L), (1 : Val))]]) 0 0)
      [[(("a".data : L), (1 : Val))]] 0 0 none).1 rfl rfl
  · exact (c1_return_shape_by_verb ("SHOW DATABASES".data) none none true
      ⟨some ("mysql".data)⟩ (ExecOutcome.done (some [[(("d".data : L), (7 : Val))]]) 0 0)
      [[(("d".data : L), (7 : Val))]] 0 0 none).1 rfl rfl
  · exact (c1_return_shape_by_verb ("INSERT INTO t VALUES (1)".data) none none true
      ⟨some ("mysql".data)⟩ (ExecOutcome.done none 1 42) [] 1 42 none).2.1
      rfl (by decide) rfl
  · exact (c1_return_shape_by_verb ("UPDATE t SET a = 1 WHERE b = 2".data) none none true
      ⟨some ("mysql".data)⟩ (ExecOutcome.done none 3 0) [] 3 0 none).2.2.1
      rfl (Or.inl (by decide)) rfl
  · exact (c1_return_shape_by_verb ("SHOW TABLES".data) none none true
      ⟨some ("mysql".data)⟩ (ExecOutcome.done none 0 0) [] 0 0 none).2.2.2.2.2.2.2
      rfl (by decide) (by decide) (by decide) (by decide) (by decide) rfl

/-- Counterexample to C1 as stated: in the `db_bridge` version the return
shape is decided by the cursor reporting a result set, not by the leading
verb.  An accepted `SHOW TABLES` statement - an "other permitted
statement", its leading verb being none of SELECT, INSERT, UPDATE or
DELETE - whose cursor carries a result set returns the fetched rows, not
the empty list the claim promises. -/
theorem c1_counterexample :
    firstCmd ((run_sql_bridge ("SHOW TABLES".data) none none true ⟨some ("mysql".data)⟩
        (ExecOutcome.done (some [[(("x".data : L), (9 : Val))]]) 0 0)).rawUsed)
      = "SHOW".data
    ∧ (run_sql_bridge ("SHOW TABLES".data) none none true ⟨some ("mysql".data)⟩
        (ExecOutcome.done (some [[(("x".data : L), (9 : Val))]]) 0 0)).connOpened = true
    ∧ (run_sql_bridge ("SHOW TABLES".data) none none true ⟨some ("mysql".data)⟩
        (ExecOutcome.done (some [[(("x".data : L), (9 : Val))]]) 0 0)).result
      = Except.ok (RetVal.rows [[(("x".data : L), (9 : Val))]])
    ∧ isEmptyListRes ((run_sql_bridge ("SHOW TABLES".data) none none true
        ⟨some ("mysql".data)⟩
        (ExecOutcome.done (some [[(("x".data : L), (9 : Val))]]) 0 0)).result) = false := by
  exact ⟨by decide, rfl, rfl, rfl⟩

theorem isPermWhereRes_execB (raw : L) (d : DriverKind) (params : Option (List Val))
    (quiet : Option Bool) (env : ExecOutcome) :
    isPermWhereRes (execCoreB raw d params quiet env).result = false := by
  cases env with
  | raises e => rfl
  | done desc rc lid =>
    cases desc with
    | some rs => rfl
    | none =>
      simp only [execCoreB]
      by_cases h1 : (firstCmd raw == kwINSERT) = true
      · rw [if_pos h1]
        rfl
      · rw [if_neg h1]
        by_cases h2 : ((firstCmd raw == kwUPDATE) || (firstCmd raw == kwDELETE)) = true
        · rw [if_pos h2]
          rfl
        · rw [if_neg h2]
          rfl

theorem isPermWhereRes_execL (raw : L) (quiet : Option Bool) (env : ExecOutcome) :
    isPermWhereRes (execCoreL raw quiet env).result = false := by
  cases env with
  | raises e => rfl
  | done desc rc lid =>
    simp only [execCoreL]
    by_cases h0 : ((raw.dropWhile isWS) == []) = true
    · rw [if_pos h0]
      rfl
    · rw [if_neg h0]
      by_cases h1 : (firstToken raw == kwSELECT) = true
      · rw [if_pos h1]
        rfl
      · rw [if_neg h1]
        by_cases h2 : (firstToken raw == kwINSERT) = true
        · rw [if_pos h2]
          rfl
        · rw [if_neg h2]
          by_cases h3 : ((firstToken raw == kwUPDATE) || (firstToken raw == kwDELETE)) = true
          · rw [if_pos h3]
            rfl
          · rw [if_neg h3]
            rfl

/-- **C2 (amended).** A SQL string whose stripped text begins with CREATE or
DROP (case-insensitive) is rejected with a permission error before a
connection is opened or anything is executed — in the bridge version
provided the selected driver is not sqlite (the guard is skipped for
sqlite), and unconditionally in the legacy version. -/
theorem c2_ddl_guard (sql : L) (params : Option (List Val)) (quiet : Option Bool)
    (ntn : Bool) (creds : Creds) (env : ExecOutcome)
    (h1 : (ciStarts kwCREATE (pyStrip sql) || ciStarts kwDROP (pyStrip sql)) = true)
    (h2 : lowerL (creds.driver.getD ("mysql".data)) ≠ "sqlite".data) :
    (run_sql_bridge sql params quiet ntn creds env).result
      = Except.error (PyErr.permDDL (ddlMsg (prepRaw sql params ntn)))
    ∧ (run_sql_bridge sql params quiet ntn creds env).connOpened = false
    ∧ (run_sql_bridge sql params quiet ntn creds env).executedSql = none
    ∧ (run_sql_bridge sql params quiet ntn creds env).bridge = none
    ∧ (run_sql_legacy sql params quiet ntn env).result
      = Except.error (PyErr.permDDL ("SQL PERMISSION ERROR: CREATE/DROP not allowed".data))
    ∧ (run_sql_legacy sql params quiet ntn env).connOpened = false
    ∧ (run_sql_legacy sql params quiet ntn env).executedSql = none := by
  have hraw : (ciStarts kwCREATE (prepRaw sql params ntn)
      || ciStarts kwDROP (prepRaw sql params ntn)) = true := by
    rcases Bool.or_eq_true _ _ ▸ h1 with hc | hc
    · rw [(prepRaw_starts_CREATE sql params ntn).mpr hc]
      rfl
    · rw [(prepRaw_starts_DROP sql params ntn).mpr hc]
      simp
  have hddl : guardDDL (prepRaw sql params ntn)
      (lowerL (creds.driver.getD ("mysql".data))) = true := by
    rw [guardDDL, hraw]
    have : (lowerL (creds.driver.getD ("mysql".data)) == "sqlite".data) = false :=
      beq_eq_false_iff_ne.mpr h2
    rw [this]
    rfl
  have hb := run_core_bridge_ddl params quiet env hddl
  have hl := run_core_legacy_ddl quiet env hraw
  refine ⟨?_, ?_, ?_, ?_, ?_, ?_, ?_⟩
  · rw [run_sql_bridge_eq, mkOut_result, hb]
    rfl
  · rw [run_sql_bridge_eq, mkOut_connOpened, hb]
    rfl
  · rw [run_sql_bridge_eq, mkOut_executedSql, hb]
    rfl
  · rw [run_sql_bridge_eq, mkOut_bridge, hb]
    rfl
  · rw [run_sql_legacy_eq, mkOut_result, hl]
    rfl
  · rw [run_sql_legacy_eq, mkOut_connOpened, hl]
    rfl
  · rw [run_sql_legacy_eq, mkOut_executedSql, hl]
    rfl

/-- Witness for C2 (amended): a CREATE on a postgres profile is rejected
without a connection. -/
theorem c2_witness :
    (run_sql_bridge ("CREATE TABLE t (x INTEGER)".data) none none true
        ⟨some ("postgres".data)⟩ (ExecOutcome.done none 0 0)).result
      = Except.error (PyErr.permDDL (ddlMsg ("CREATE TABLE t (x INTEGER)".data)))
    ∧ (run_sql_bridge ("CREATE TABLE t (x INTEGER)".data) none none true
        ⟨some ("postgres".data)⟩ (ExecOutcome.done none 0 0)).connOpened = false := by
  have h := c2_ddl_guard ("CREATE TABLE t (x INTEGER)".data) none none true
    ⟨some ("postgres".data)⟩ (ExecOutcome.done none 0 0) (by decide) (by decide)
  exact ⟨h.1, h.2.1⟩

/-- Counterexample to C2 as stated: with the sqlite driver the very same
CREATE statement passes the guard, opens a connection and executes,
returning the empty list. -/
theorem c2_counterexample :
    (run_sql_bridge ("CREATE TABLE t (x INTEGER)".data) none none true
        ⟨some ("sqlite".data)⟩ (ExecOutcome.done none 0 0)).result
      = Except.ok RetVal.emptyList
    ∧ isPermDDLRes ((run_sql_bridge ("CREATE TABLE t (x INTEGER)".data) none none true
        ⟨some ("sqlite".data)⟩ (ExecOutcome.done none 0 0)).result) = false
    ∧ (run_sql_bridge ("CREATE TABLE t (x INTEGER)".data) none none true
        ⟨some ("sqlite".data)⟩ (ExecOutcome.done none 0 0)).connOpened = true :=
  ⟨rfl, rfl, rfl⟩

/-- **C3.** For every SQL string whose stripped text begins with UPDATE or
DELETE (case-insensitive) and that contains no occurrence of WHERE
(case-insensitive) anywhere in the text, `run_sql` raises a permission
error before executing the statement, leaving the database unchanged
(nothing was executed and no connection opened); if the text does contain
WHERE, this guard does not fire.  Both versions. -/
theorem c3_where_guard (sql : L) (params : Option (List Val)) (quiet : Option Bool)
    (ntn : Bool) (creds : Creds) (env : ExecOutcome)
    (hU : (ciStarts kwUPDATE (pyStrip sql) || ciStarts kwDELETE (pyStrip sql)) = true) :
    (ciHas kwWHERE sql = false →
      (run_sql_bridge sql params quiet ntn creds env).result
        = Except.error (PyErr.permWhere (whereMsg (prepRaw sql params ntn)))
      ∧ (run_sql_bridge sql params quiet ntn creds env).connOpened = false
      ∧ (run_sql_bridge sql params quiet ntn creds env).executedSql = none
      ∧ (run_sql_legacy sql params quiet ntn env).result
        = Except.error (PyErr.permWhere ("SQL ERROR: UPDATE/DELETE requires WHERE clause".data))
      ∧ (run_sql_legacy sql params quiet ntn env).connOpened = false
      ∧ (run_sql_legacy sql params quiet ntn env).executedSql = none)
    ∧ (ciHas kwWHERE sql = true →
      isPermWhereRes ((run_sql_bridge sql params quiet ntn creds env).result) = false
      ∧ isPermWhereRes ((run_sql_legacy sql params quiet ntn env).result) = false) := by
  have hUraw : (ciStarts kwUPDATE (prepRaw sql params ntn)
      || ciStarts kwDELETE (prepRaw sql params ntn)) = true := by
    rcases Bool.or_eq_true _ _ ▸ hU with hc | hc
    · rw [(prepRaw_starts_UPDATE sql params ntn).mpr hc]
      rfl
    · rw [(prepRaw_starts_DELETE sql params ntn).mpr hc]
      simp
  have hddl : guardDDL (prepRaw sql params ntn)
      (lowerL (creds.driver.getD ("mysql".data))) = false := by
    rcases Bool.or_eq_true _ _ ▸ hUraw with hc | hc
    · exact guardDDL_false_of_U hc
    · exact guardDDL_false_of_D hc
  have hddlL : (ciStarts kwCREATE (prepRaw sql params ntn)
      || ciStarts kwDROP (prepRaw sql params ntn)) = false := by
    rcases Bool.or_eq_true _ _ ▸ hUraw with hc | hc
    · exact legacy_ddl_false_of_U hc
    · exact legacy_ddl_false_of_D hc
  constructor
  · intro hW
    have hWraw : ciHas kwWHERE (prepRaw sql params ntn) = false := by
      cases hx : ciHas kwWHERE (prepRaw sql params ntn) with
      | false => rfl
      | true =>
        exfalso
        have := (prepRaw_has_WHERE sql params ntn).mp hx
        rw [hW] at this
        cases this
    have hgw : guardWhere (prepRaw sql params ntn) = true := by
      rw [guardWhere, hUraw, hWraw]
      rfl
    have hb := run_core_bridge_where params quiet env hddl hgw
    have hl := run_core_legacy_where quiet env hddlL hgw
    refine ⟨?_, ?_, ?_, ?_, ?_, ?_⟩
    · rw [run_sql_bridge_eq, mkOut_result, hb]
      rfl
    · rw [run_sql_bridge_eq, mkOut_connOpened, hb]
      rfl
    · rw [run_sql_bridge_eq, mkOut_executedSql, hb]
      rfl
    · rw [run_sql_legacy_eq, mkOut_result, hl]
      rfl
    · rw [run_sql_legacy_eq, mkOut_connOpened, hl]
      rfl
    · rw [run_sql_legacy_eq, mkOut_executedSql, hl]
      rfl
  · intro hW
    have hWraw : ciHas kwWHERE (prepRaw sql params ntn) = true :=
      (prepRaw_has_WHERE sql params ntn).mpr hW
    have hgw : guardWhere (prepRaw sql params ntn) = false := by
      rw [guardWhere, hWraw]
      simp
    constructor
    · rw [run_sql_bridge_eq, mkOut_result]
      cases hd : driverOf (lowerL (creds.driver.getD ("mysql".data))) with
      | none =>
        rw [run_core_bridge_value params quiet env hddl hgw hd]
        rfl
      | some d =>
        rw [run_core_bridge_exec params quiet env hddl hgw hd]
        exact isPermWhereRes_execB _ _ _ _ _
    · rw [run_sql_legacy_eq, mkOut_result,
        run_core_legacy_exec quiet env hddlL hgw]
      exact isPermWhereRes_execL _ _ _

/-- Witness for C3: a DELETE without WHERE is rejected in both versions, and
an UPDATE with WHERE is not rejected by the WHERE guard. -/
theorem c3_witness :
    (run_sql_bridge ("DELETE FROM t".data) none none true ⟨some ("mysql".data)⟩
        (ExecOutcome.done none 0 0)).result
      = Except.error (PyErr.permWhere (whereMsg ("DELETE FROM t".data)))
    ∧ isPermWhereRes ((run_sql_bridge ("UPDATE t SET a = 1 WHERE b = 2".data) none none true
        ⟨some ("mysql".data)⟩ (ExecOutcome.done none 1 0)).result) = false := by
  constructor
  · exact ((c3_where_guard ("DELETE FROM t".data) none none true ⟨some ("mysql".data)⟩
      (ExecOutcome.done none 0 0) (by decide)).1 (by decide)).1
  · exact ((c3_where_guard ("UPDATE t SET a = 1 WHERE b = 2".data) none none true
      ⟨some ("mysql".data)⟩ (ExecOutcome.done none 1 0) (by decide)).2 (by decide)).1

theorem executedSql_core_bridge {raw driver : L} {params : Option (List Val)}
    {quiet : Option Bool} {env : ExecOutcome} {e : L}
    (h : (run_core_bridge raw driver params quiet env).executedSql = some e) :
    ∃ d, driverOf driver = some d ∧ e = execSqlOf raw d params := by
  by_cases h1 : guardDDL raw driver = true
  · rw [run_core_bridge_ddl params quiet env h1] at h
    cases h
  · have h1' : guardDDL raw driver = false := by
      cases hg : guardDDL raw driver
      · rfl
      · exact absurd hg h1
    by_cases h2 : guardWhere raw = true
    · rw [run_core_bridge_where params quiet env h1' h2] at h
      cases h
    · have h2' : guardWhere raw = false := by
        cases hg : guardWhere raw
        · rfl
        · exact absurd hg h2
      cases hd : driverOf driver with
      | none =>
        rw [run_core_bridge_value params quiet env h1' h2' hd] at h
        cases h
      | some d =>
        rw [run_core_bridge_exec params quiet env h1' h2' hd] at h
        obtain ⟨r, hr⟩ := execCoreB_shape raw d params quiet env
        rw [hr] at h
        simp only [Option.some.injEq] at h
        exact ⟨d, rfl, h.symm⟩

/-- **C5.** When `run_sql` is called with a non-empty params tuple and the
selected driver is sqlite, every occurrence of the `%s` placeholder in the
SQL string is replaced by `?` before execution; for the mysql and postgres
drivers the SQL text is executed with its `%s` placeholders unchanged. -/
theorem c5_sqlite_placeholder (sql : L) (quiet : Option Bool) (ntn : Bool)
    (creds : Creds) (env : ExecOutcome) (ps : List Val) (e : L)
    (hps : ps ≠ []) :
    (lowerL (creds.driver.getD ("mysql".data)) = "sqlite".data →
      (run_sql_bridge sql (some ps) quiet ntn creds env).executedSql = some e →
      e = replaceL patPercentS repQM (prepRaw sql (some ps) ntn))
    ∧ (∀ dk, driverOf (lowerL (creds.driver.getD ("mysql".data))) = some dk →
      (dk = DriverKind.mysql ∨ dk = DriverKind.postgres) →
      (run_sql_bridge sql (some ps) quiet ntn creds env).executedSql = some e →
      e = prepRaw sql (some ps) ntn) := by
  have hpe : paramsNonempty (some ps) = true := by
    cases ps with
    | nil => exact absurd rfl hps
    | cons p rest => rfl
  constructor
  · intro hdrv hsql
    rw [run_sql_bridge_eq, mkOut_executedSql] at hsql
    obtain ⟨d, hd, he⟩ := executedSql_core_bridge hsql
    rw [hdrv] at hd
    have hds : d = DriverKind.sqlite := by
      have : driverOf ("sqlite".data) = some DriverKind.sqlite := rfl
      rw [this] at hd
      exact (Option.some.injEq _ _ ▸ hd).symm
    rw [he, hds, execSqlOf, if_pos (by rw [hpe]; rfl)]
  · intro dk hdk hmp hsql
    rw [run_sql_bridge_eq, mkOut_executedSql] at hsql
    obtain ⟨d, hd, he⟩ := executedSql_core_bridge hsql
    rw [hdk] at hd
    have hdd : d = dk := (Option.some.injEq _ _ ▸ hd).symm
    rw [he, hdd, execSqlOf, if_neg]
    rcases hmp with h | h <;> rw [h] <;> simp

/-- Witness for C5: on a sqlite profile the executed text has `?` in place
of `%s`; on mysql it is the prepared text unchanged. -/
theorem c5_witness :
    ("SELECT a FROM t WHERE b = ?".data : L)
      = replaceL patPercentS repQM
          (prepRaw ("SELECT a FROM t WHERE b = %s".data) (some [7]) true)
    ∧ ("SELECT a FROM t WHERE b = %s".data : L)
      = prepRaw ("SELECT a FROM t WHERE b = %s".data) (some [7]) true := by
  constructor
  · exact (c5_sqlite_placeholder ("SELECT a FROM t WHERE b = %s".data) none true
      ⟨some ("sqlite".data)⟩ (ExecOutcome.done (some []) 0 0) [7]
      ("SELECT a FROM t WHERE b = ?".data) (by decide)).1 (by decide) (by decide)
  · exact (c5_sqlite_placeholder ("SELECT a FROM t WHERE b = %s".data) none true
      ⟨some ("mysql".data)⟩ (ExecOutcome.done (some []) 0 0) [7]
      ("SELECT a FROM t WHERE b = %s".data) (by decide)).2 DriverKind.mysql
      (by decide) (Or.inl rfl) (by decide)

/-- **C6 (amended).** `run_sql` opens its connection via the bridge matching
the lower-cased `creds["driver"]` value: whenever a connection opens it is
through the adapter selected from that string, a missing driver key
defaults to mysql, and any other driver value makes `run_sql` raise
ValueError without opening a connection — except that the permission guards
run first, so a statement they reject raises `SQLPermissionError` instead
of `ValueError`. -/
theorem c6_driver_dispatch (sql : L) (params : Option (List Val)) (quiet : Option Bool)
    (ntn : Bool) (creds : Creds) (env : ExecOutcome) :
    (∀ dk, driverOf (lowerL (creds.driver.getD ("mysql".data))) = some dk →
      (run_sql_bridge sql params quiet ntn creds env).connOpened = true →
      (run_sql_bridge sql params quiet ntn creds env).bridge = some dk)
    ∧ (creds.driver = none →
      driverOf (lowerL (creds.driver.getD ("mysql".data))) = some DriverKind.mysql)
    ∧ (driverOf (lowerL (creds.driver.getD ("mysql".data))) = none →
      isPermDDLRes ((run_sql_bridge sql params quiet ntn creds env).result) = false →
      isPermWhereRes ((run_sql_bridge sql params quiet ntn creds env).result) = false →
      (run_sql_bridge sql params quiet ntn creds env).result
          = Except.error (PyErr.valueError
              ("Unsupported driver: ".data ++ lowerL (creds.driver.getD ("mysql".data))))
        ∧ (run_sql_bridge sql params quiet ntn creds env).connOpened = false
        ∧ (run_sql_bridge sql params quiet ntn creds env).bridge = none) := by
  refine ⟨?_, ?_, ?_⟩
  · intro dk hdk hconn
    rw [run_sql_bridge_eq, mkOut_connOpened] at hconn
    obtain ⟨d, hd, heq⟩ := core_exec_of_connOpened hconn
    rw [hdk] at hd
    have hdd : d = dk := (Option.some.injEq _ _ ▸ hd).symm
    rw [run_sql_bridge_eq, mkOut_bridge, heq]
    obtain ⟨r, hr⟩ := execCoreB_shape (prepRaw sql params ntn) d params quiet env
    rw [hr, hdd]
  · intro h
    rw [h]
    rfl
  · intro hd hddl hwre
    by_cases h1 : guardDDL (prepRaw sql params ntn)
        (lowerL (creds.driver.getD ("mysql".data))) = true
    · exfalso
      rw [run_sql_bridge_eq, mkOut_result,
        run_core_bridge_ddl params quiet env h1] at hddl
      cases hddl
    · have h1' : guardDDL (prepRaw sql params ntn)
          (lowerL (creds.driver.getD ("mysql".data))) = false := by
        cases hg : guardDDL (prepRaw sql params ntn)
            (lowerL (creds.driver.getD ("mysql".data)))
        · rfl
        · exact absurd hg h1
      by_cases h2 : guardWhere (prepRaw sql params ntn) = true
      · exfalso
        rw [run_sql_bridge_eq, mkOut_result,
          run_core_bridge_where params quiet env h1' h2] at hwre
        cases hwre
      · have h2' : guardWhere (prepRaw sql params ntn) = false := by
          cases hg : guardWhere (prepRaw sql params ntn)
          · rfl
          · exact absurd hg h2
        have hv := run_core_bridge_value params quiet env h1' h2' hd
        refine ⟨?_, ?_, ?_⟩
        · rw [run_sql_bridge_eq, mkOut_result, hv]
          rfl
        · rw [run_sql_bridge_eq, mkOut_connOpened, hv]
          rfl
        · rw [run_sql_bridge_eq, mkOut_bridge, hv]
          rfl

/-- Witness for C6 (amended): an upper-cased sqlite profile opens the
sqlite bridge; a missing driver key resolves to mysql; a bogus driver on a
plain SELECT raises ValueError with no connection. -/
theorem c6_witness :
    (run_sql_bridge ("SELECT a FROM t".data) none none true ⟨some ("SQLite".data)⟩
        (ExecOutcome.done (some []) 0 0)).bridge = some DriverKind.sqlite
    ∧ driverOf (lowerL ((Creds.mk none).driver.getD ("mysql".data)))
        = some DriverKind.mysql
    ∧ (run_sql_bridge ("SELECT a FROM t".data) none none true ⟨some ("oracle".data)⟩
        (ExecOutcome.done (some []) 0 0)).result
        = Except.error (PyErr.valueError ("Unsupported driver: oracle".data))
    ∧ (run_sql_bridge ("SELECT a FROM t".data) none none true ⟨some ("oracle".data)⟩
        (ExecOutcome.done (some []) 0 0)).connOpened = false := by
  refine ⟨?_, ?_, ?_, ?_⟩
  · exact (c6_driver_dispatch ("SELECT a FROM t".data) none none true
      ⟨some ("SQLite".data)⟩ (ExecOutcome.done (some []) 0 0)).1 DriverKind.sqlite
      (by decide) rfl
  · exact (c6_driver_dispatch ("SELECT a FROM t".data) none none true
      ⟨none⟩ (ExecOutcome.done (some []) 0 0)).2.1 rfl
  · exact ((c6_driver_dispatch ("SELECT a FROM t".data) none none true
      ⟨some ("oracle".data)⟩ (ExecOutcome.done (some []) 0 0)).2.2
      (by decide) (by decide) (by decide)).1
  · exact ((c6_driver_dispatch ("SELECT a FROM t".data) none none true
      ⟨some ("oracle".data)⟩ (ExecOutcome.done (some []) 0 0)).2.2
      (by decide) (by decide) (by decide)).2.1

/-- Counterexample to C6 as stated: with an unsupported driver value and a
CREATE statement, `run_sql` raises the DDL permission error, not
ValueError. -/
theorem c6_counterexample :
    (run_sql_bridge ("CREATE TABLE t (x)".data) none none true ⟨some ("oracle".data)⟩
        (ExecOutcome.done none 0 0)).result
      = Except.error (PyErr.permDDL (ddlMsg ("CREATE TABLE t (x)".data)))
    ∧ isValueErrorRes ((run_sql_bridge ("CREATE TABLE t (x)".data) none none true
        ⟨some ("oracle".data)⟩ (ExecOutcome.done none 0 0)).result) = false :=
  ⟨rfl, rfl⟩

/-- **C7 (amended).** There is no retry or fallback in either `run_sql`:
when the cursor execution raises, the statement is attempted exactly once
and the exception propagates after the `finally` clause closes the cursor
and the connection.  The legacy version re-raises the driver's exception
unchanged; the bridge version wraps it in `SQLExecutionError`, chaining the
original error. -/
theorem c7_exception_handling (sql : L) (params : Option (List Val)) (quiet : Option Bool)
    (ntn : Bool) (creds : Creds) (env : ExecOutcome) (e : DriverErr)
    (henv : env = ExecOutcome.raises e) :
    ((run_sql_bridge sql params quiet ntn creds env).connOpened = true →
      (run_sql_bridge sql params quiet ntn creds env).result
        = Except.error (PyErr.sqlExecution ("Failed to execute SQL: ".data ++ e.msg) e)
      ∧ (run_sql_bridge sql params quiet ntn creds env).closedAfter = true)
    ∧ ((run_sql_legacy sql params quiet ntn env).connOpened = true →
      (run_sql_legacy sql params quiet ntn env).result
        = Except.error (PyErr.driverPass e)
      ∧ (run_sql_legacy sql params quiet ntn env).closedAfter = true) := by
  subst henv
  constructor
  · intro hconn
    rw [run_sql_bridge_eq, mkOut_connOpened] at hconn
    obtain ⟨d, _, heq⟩ := core_exec_of_connOpened hconn
    constructor
    · rw [run_sql_bridge_eq, mkOut_result, heq]
      exact execCoreB_result_raises _ _ _ _ _
    · rw [run_sql_bridge_eq, mkOut_closedAfter, heq]
      rfl
  · intro hconn
    rw [run_sql_legacy_eq, mkOut_connOpened] at hconn
    have heq := coreL_exec_of_connOpened hconn
    constructor
    · rw [run_sql_legacy_eq, mkOut_result, heq]
      rfl
    · rw [run_sql_legacy_eq, mkOut_closedAfter, heq]
      rfl

/-- Witness for C7 (amended): a failing execute yields the wrapped
`SQLExecutionError` in the bridge version and the unchanged driver error in
the legacy version, both after closing. -/
theorem c7_witness :
    (run_sql_bridge ("SELECT a FROM t".data) none none true ⟨some ("mysql".data)⟩
        (ExecOutcome.raises ⟨"deadlock found".data⟩)).result
      = Except.error (PyErr.sqlExecution ("Failed to execute SQL: deadlock found".data)
          ⟨"deadlock found".data⟩)
    ∧ (run_sql_legacy ("SELECT a FROM t".data) none none true
        (ExecOutcome.raises ⟨"deadlock found".data⟩)).result
      = Except.error (PyErr.driverPass ⟨"deadlock found".data⟩) := by
  constructor
  · exact ((c7_exception_handling ("SELECT a FROM t".data) none none true
      ⟨some ("mysql".data)⟩ (ExecOutcome.raises ⟨"deadlock found".data⟩)
      ⟨"deadlock found".data⟩ rfl).1 rfl).1
  · exact ((c7_exception_handling ("SELECT a FROM t".data) none none true
      ⟨some ("mysql".data)⟩ (ExecOutcome.raises ⟨"deadlock found".data⟩)
      ⟨"deadlock found".data⟩ rfl).2 rfl).1

/-- Counterexample to C7 as stated: in the bridge version the caller does
not receive the driver's exception unchanged but an `SQLExecutionError`
wrapping it. -/
theorem c7_counterexample :
    (run_sql_bridge ("SELECT a FROM t".data) none none true ⟨some ("mysql".data)⟩
        (ExecOutcome.raises ⟨"deadlock".data⟩)).result
      = Except.error (PyErr.sqlExecution ("Failed to execute SQL: deadlock".data)
          ⟨"deadlock".data⟩)
    ∧ isDriverPassRes ((run_sql_bridge ("SELECT a FROM t".data) none none true
        ⟨some ("mysql".data)⟩ (ExecOutcome.raises ⟨"deadlock".data⟩)).result) = false :=
  ⟨rfl, rfl⟩

theorem quietUsed_core_bridge {raw driver : L} {params : Option (List Val)}
    {quiet : Option Bool} {env : ExecOutcome} {q : Bool}
    (h : (run_core_bridge raw driver params quiet env).quietUsed = some q) :
    q = quiet.getD (quietAuto raw) := by
  by_cases h1 : guardDDL raw driver = true
  · rw [run_core_bridge_ddl params quiet env h1] at h
    cases h
  · have h1' : guardDDL raw driver = false := by
      cases hg : guardDDL raw driver
      · rfl
      · exact absurd hg h1
    by_cases h2 : guardWhere raw = true
    · rw [run_core_bridge_where params quiet env h1' h2] at h
      cases h
    · have h2' : guardWhere raw = false := by
        cases hg : guardWhere raw
        · rfl
        · exact absurd hg h2
      cases hd : driverOf driver with
      | none =>
        rw [run_core_bridge_value params quiet env h1' h2' hd] at h
        cases h
      | some d =>
        rw [run_core_bridge_exec params quiet env h1' h2' hd] at h
        obtain ⟨r, hr⟩ := execCoreB_shape raw d params quiet env
        rw [hr] at h
        exact (Option.some.injEq _ _ ▸ h).symm

theorem quietUsed_core_legacy {raw : L} {quiet : Option Bool} {env : ExecOutcome} {q : Bool}
    (h : (run_core_legacy raw quiet env).quietUsed = some q) :
    q = quiet.getD (quietAuto raw) := by
  by_cases h1 : (ciStarts kwCREATE raw || ciStarts kwDROP raw) = true
  · rw [run_core_legacy_ddl quiet env h1] at h
    cases h
  · have h1' : (ciStarts kwCREATE raw || ciStarts kwDROP raw) = false := by
      cases hg : (ciStarts kwCREATE raw || ciStarts kwDROP raw)
      · rfl
      · exact absurd hg h1
    by_cases h2 : guardWhere raw = true
    · rw [run_core_legacy_where quiet env h1' h2] at h
      cases h
    · have h2' : guardWhere raw = false := by
        cases hg : guardWhere raw
        · rfl
        · exact absurd hg h2
      rw [run_core_legacy_exec quiet env h1' h2'] at h
      obtain ⟨r, hr⟩ := execCoreL_shape raw quiet env
      rw [hr] at h
      exact (Option.some.injEq _ _ ▸ h).symm

/-- **C8.** When `run_sql` is called with `quiet=None`, verbosity is
auto-determined from the statement kind: the quiet value in effect becomes
False exactly when the stripped SQL begins with UPDATE, DELETE or INSERT
(case-insensitive), and True for every other statement; an explicitly
passed quiet value is used unchanged.  Both versions. -/
theorem c8_quiet_auto (sql : L) (params : Option (List Val)) (ntn : Bool)
    (creds : Creds) (env : ExecOutcome) (q : Bool) (b : Bool) :
    ((run_sql_bridge sql params none ntn creds env).quietUsed = some q →
      (q = false ↔ (ciStarts kwUPDATE (pyStrip sql) || ciStarts kwDELETE (pyStrip sql)
        || ciStarts kwINSERT (pyStrip sql)) = true))
    ∧ ((run_sql_bridge sql params (some b) ntn creds env).quietUsed = some q → q = b)
    ∧ ((run_sql_legacy sql params none ntn env).quietUsed = some q →
      (q = false ↔ (ciStarts kwUPDATE (pyStrip sql) || ciStarts kwDELETE (pyStrip sql)
        || ciStarts kwINSERT (pyStrip sql)) = true))
    ∧ ((run_sql_legacy sql params (some b) ntn env).quietUsed = some q → q = b) := by
  have key : ∀ x : Bool, ((!x) = false ↔ x = true) := by decide
  have hiff : (quietAuto (prepRaw sql params ntn) = false
      ↔ (ciStarts kwUPDATE (pyStrip sql) || ciStarts kwDELETE (pyStrip sql)
        || ciStarts kwINSERT (pyStrip sql)) = true) := by
    rw [quietAuto, key]
    simp only [Bool.or_eq_true]
    rw [prepRaw_starts_UPDATE sql params ntn, prepRaw_starts_DELETE sql params ntn,
      prepRaw_starts_INSERT sql params ntn]
  refine ⟨?_, ?_, ?_, ?_⟩
  · intro h
    rw [run_sql_bridge_eq, mkOut_quietUsed] at h
    have := quietUsed_core_bridge h
    rw [Option.getD_none] at this
    rw [this]
    exact hiff
  · intro h
    rw [run_sql_bridge_eq, mkOut_quietUsed] at h
    have := quietUsed_core_bridge h
    rw [Option.getD_some] at this
    exact this
  · intro h
    rw [run_sql_legacy_eq, mkOut_quietUsed] at h
    have := quietUsed_core_legacy h
    rw [Option.getD_none] at this
    rw [this]
    exact hiff
  · intro h
    rw [run_sql_legacy_eq, mkOut_quietUsed] at h
    have := quietUsed_core_legacy h
    rw [Option.getD_some] at this
    exact this

/-- Witness for C8: the auto-determined quiet flag is False for an UPDATE
statement and an explicit quiet value is kept. -/
theorem c8_witness :
    (false = false ↔ (ciStarts kwUPDATE (pyStrip ("UPDATE t SET a = 1 WHERE b = 2".data))
      || ciStarts kwDELETE (pyStrip ("UPDATE t SET a = 1 WHERE b = 2".data))
      || ciStarts kwINSERT (pyStrip ("UPDATE t SET a = 1 WHERE b = 2".data))) = true)
    ∧ true = true := by
  constructor
  · exact (c8_quiet_auto ("UPDATE t SET a = 1 WHERE b = 2".data) none true
      ⟨some ("mysql".data)⟩ (ExecOutcome.done none 1 0) false true).1 (by decide)
  · exact (c8_quiet_auto ("SELECT a FROM t".data) none true
      ⟨some ("mysql".data)⟩ (ExecOutcome.done (some []) 0 0) true true).2.1 (by decide)

/-- **C9.** When `run_sql` is called with `params=None` and
`none_to_null=True`, the raw SQL that the permission guards and the
execution phase see is the stripped input rewritten by
`replace_none_w_null` — first the quoted occurrences of None, then every
remaining bare occurrence, including occurrences inside longer identifiers
and inside quoted string data, the result being whitespace-stripped.  When
`params` is not None, the text is only stripped and never rewritten this
way.  Both versions; the concrete example exhibits the identifier-internal
and quoted-data substitutions. -/
theorem c9_none_to_null_rewrite (sql : L) (quiet : Option Bool) (creds : Creds)
    (env : ExecOutcome) (ps : List Val) :
    ((run_sql_bridge sql none quiet true creds env).rawUsed
        = replace_none_w_null (pyStrip sql)
      ∧ (run_sql_legacy sql none quiet true env).rawUsed
        = replace_none_w_null (pyStrip sql))
    ∧ ((run_sql_bridge sql (some ps) quiet true creds env).rawUsed = pyStrip sql
      ∧ (run_sql_legacy sql (some ps) quiet true env).rawUsed = pyStrip sql)
    ∧ replace_none_w_null c9ExampleIn = c9ExampleOut := by
  refine ⟨⟨rfl, rfl⟩, ⟨rfl, rfl⟩, by decide⟩

